import Mathlib

/-!
# PointTracker (`src/app.js`): data model and mutation contracts

A shallow embedding of the state store and aggregation engine of `app.js`.

Modelling conventions.

* A JavaScript number is `JSNum`: either `NaN` or a finite value, the finite
  values being exact rationals.  The definitions compute with exact arithmetic
  (no rounding, no overflow to an infinity); the numbers a bucket holds are sums
  of products of finite values and are kept as rationals.  Where the rounding
  of binary64 arithmetic matters, `roundToDouble` and `fmul` give it, and
  `currentMultiplierProductDouble` is `currentMultiplierProduct` computed with it.
* The global `state` is passed explicitly; every handler is a function from the
  state before the event to the state in memory when the handler returns.
  `todayKey()` reads the clock, so the date key is a parameter of the handlers
  that use it.
* A handler that calls `renderTotals()` reaches `getTodayTotals()`, which inserts
  the day's empty bucket into `dailyTotals` when there is none; `renderTotals`
  is that effect, and it is part of every handler that makes the call.  The
  other render functions do not write to the state.
* `dailyTotals` is an association list of its own properties in insertion
  order: reading a key gives the first entry, writing replaces it in place or
  appends a new entry (its keys are date keys).  `categories` is a plain object
  too, and its keys are free text: a read of a key that is not an own property
  reaches `Object.prototype` (`readCategory`).
* A button handler closes over the object it was rendered for; the handlers
  here name that object by its position in the rendered sequence.
* The numeric argument of an add or edit handler is the value of
  `Number(input.value || 0)`, and an index of the reorder step is an integer.
* `JSON.parse` and `JSON.stringify` are platform services, and `randomId` draws
  on `Math.random` and `Date.now`; they are parameters of the definitions that
  call them.  `jsonStringify` is a JSON writer for the documents of the model,
  used where a concrete serializer is needed.
-/

namespace PointTracker

/-! ## Numbers -/

/-- A JavaScript number: `NaN`, or a finite value held exactly. -/
inductive JSNum where
  | nan : JSNum
  | fin (q : ℚ) : JSNum
  deriving DecidableEq, Repr

namespace JSNum

/-- Truthiness of a number (`ToBoolean`): `NaN` and `0` are falsy. -/
def truthy : JSNum → Bool
  | nan => false
  | fin q => decide (q ≠ 0)

/-- The comparison `x <= 0`; every comparison with `NaN` is false. -/
def leZero : JSNum → Bool
  | nan => false
  | fin q => decide (q ≤ 0)

/-- The expression `Number(x || d)` for a finite default `d`: a falsy `x` is
replaced by `d`, so the result is always finite. -/
def orElse (x : JSNum) (d : ℚ) : ℚ :=
  match x with
  | nan => d
  | fin q => if q ≠ 0 then q else d

/-- JavaScript multiplication: `NaN` is absorbing, finite values multiply exactly. -/
def mul : JSNum → JSNum → JSNum
  | fin a, fin b => fin (a * b)
  | _, _ => nan

/-- JavaScript addition: `NaN` is absorbing, finite values add exactly. -/
def add : JSNum → JSNum → JSNum
  | fin a, fin b => fin (a + b)
  | _, _ => nan

/-- A strictly positive number: finite and greater than zero. -/
def IsPositive (x : JSNum) : Prop := ∃ q : ℚ, 0 < q ∧ x = fin q

end JSNum

/-! ## Binary64 rounding -/

/-- The number of binary digits of `n`, for `n` below `2 ^ fuel`. -/
def bitLength : Nat → Nat → Nat
  | 0, _ => 0
  | fuel + 1, n => if n = 0 then 0 else 1 + bitLength fuel (n / 2)

/-- The power `2 ^ z` for an integer exponent. -/
def pow2 (z : Int) : ℚ :=
  if 0 ≤ z then ((2 ^ z.toNat : Nat) : ℚ) else 1 / ((2 ^ (-z).toNat : Nat) : ℚ)

/-- The exponent `e` with `2 ^ e ≤ q < 2 ^ (e + 1)`, for a positive `q`. -/
def floorLog2 (q : ℚ) : Int :=
  let e : Int := (bitLength 2200 q.num.toNat : Int) - (bitLength 2200 q.den : Int)
  if pow2 e ≤ q then e else e - 1

/-- Rounding to the nearest integer, a tie going to the even one. -/
def roundHalfEven (m : ℚ) : Int :=
  let f := Rat.floor m
  let r := m - f
  if r < 1 / 2 then f
  else if 1 / 2 < r then f + 1
  else if f % 2 = 0 then f else f + 1

/-- The binary64 value nearest to `q` (round to nearest, ties to even), for `q`
in the normal range: 53 significant binary digits. -/
def roundToDouble (q : ℚ) : ℚ :=
  if q = 0 then 0
  else
    let a := |q|
    let scale := floorLog2 a - 52
    let n := roundHalfEven (a / pow2 scale)
    (if q < 0 then -1 else 1) * n * pow2 scale

/-- Multiplication of two binary64 values: the exact product, rounded. -/
def fmul (a b : ℚ) : ℚ := roundToDouble (a * b)

/-! ## Number to string -/

/-- The digits after the decimal point of `r / den`, for `r < den`; `fuel`
bounds their number. -/
def fractionDigits : Nat → Nat → Nat → List Char
  | 0, _, _ => []
  | fuel + 1, r, den =>
    if r = 0 then []
    else Char.ofNat (48 + 10 * r / den) :: fractionDigits fuel (10 * r % den) den

/-- The text `String(q)` of a number in plain decimal notation (the notation
JavaScript uses between `1e-6` and `1e21`); an expansion that does not
terminate is cut after `q.den` digits. -/
def numberText (q : ℚ) : String :=
  let n := q.num.natAbs
  (if q < 0 then "-" else "") ++ toString (n / q.den) ++
    (if n % q.den = 0 then ""
     else "." ++ String.mk (fractionDigits q.den (n % q.den) q.den))

/-! ## Data model (`defaultState`, lines 5-49) -/

/-- An entry of `state.actions`; `countToday` may be missing from the object. -/
structure Action where
  id : String
  name : String
  basePoints : JSNum
  category : String
  color : String
  countToday : Option Nat
  deriving DecidableEq, Repr

/-- An entry of `state.multipliers`. -/
structure Multiplier where
  id : String
  name : String
  value : JSNum
  color : String
  active : Bool
  deriving DecidableEq, Repr

/-- A value held under a key of `categories`: a number, or the string that
`+=` leaves there once the value read was not a number. -/
inductive CatValue where
  | num (q : ℚ) : CatValue
  | str (s : String) : CatValue
  deriving DecidableEq, Repr

/-- A value of `state.dailyTotals`: the totals of one calendar day. -/
structure DailyBucket where
  totalPoints : ℚ
  categories : List (String × CatValue)
  deriving DecidableEq, Repr

/-- The root state: the global `state` of `app.js`. -/
structure State where
  actions : List Action
  multipliers : List Multiplier
  dailyTotals : List (String × DailyBucket)
  deriving DecidableEq, Repr

/-- The seed actions of `defaultState.actions`. -/
def defaultActions : List Action :=
  [ { id := "a1", name := "Deep work (25 min)", basePoints := .fin 10,
      category := "Focus", color := "#38bdf8", countToday := some 0 },
    { id := "a2", name := "Workout session", basePoints := .fin 20,
      category := "Health", color := "#22c55e", countToday := some 0 },
    { id := "a3", name := "Social connection", basePoints := .fin 8,
      category := "Social", color := "#f97316", countToday := some 0 } ]

/-- The seed multipliers of `defaultState.multipliers`. -/
def defaultMultipliers : List Multiplier :=
  [ { id := "m1", name := "Power hour", value := .fin 2,
      color := "#f97316", active := false },
    { id := "m2", name := "Flow state", value := .fin (3 / 2),
      color := "#a855f7", active := false } ]

/-- The constant `defaultState`. -/
def defaultState : State :=
  { actions := defaultActions, multipliers := defaultMultipliers, dailyTotals := [] }

/-! ## Dictionaries -/

/-- Reading `obj[key]`: the value of the first entry with that key, if any. -/
def dictGet {β : Type} (key : String) : List (String × β) → Option β
  | [] => none
  | (k, v) :: rest => if k = key then some v else dictGet key rest

/-- Writing `obj[key] = v`: replaces the entry in place, or appends a new one. -/
def dictSet {β : Type} (key : String) (v : β) : List (String × β) → List (String × β)
  | [] => [(key, v)]
  | (k, w) :: rest => if k = key then (k, v) :: rest else (k, w) :: dictSet key v rest

/-! ## Helpers (lines 95-107) -/

/-- The bucket `{ totalPoints: 0, categories: {} }` created lazily for a day. -/
def emptyBucket : DailyBucket := { totalPoints := 0, categories := [] }

/-- The function `getTodayTotals` (lines 95-101): returns the day's bucket,
inserting an empty one into `dailyTotals` when there is none. -/
def getTodayTotals (key : String) (s : State) : DailyBucket × State :=
  match dictGet key s.dailyTotals with
  | some b => (b, s)
  | none => (emptyBucket, { s with dailyTotals := dictSet key emptyBucket s.dailyTotals })

/-- The effect of `renderTotals()` (lines 177-202) on the state: its call of
`getTodayTotals()` at line 178. -/
def renderTotals (key : String) (s : State) : State :=
  (getTodayTotals key s).2

/-- The function `currentMultiplierProduct` (lines 103-107), in exact arithmetic. -/
def currentMultiplierProduct (multipliers : List Multiplier) : ℚ :=
  let active := multipliers.filter (fun m => m.active)
  if active.length = 0 then 1
  else active.foldl (fun prod m => prod * m.value.orElse 1) 1

/-- The function `currentMultiplierProduct` (lines 103-107), in binary64
arithmetic: line 106 multiplies from left to right and rounds each product. -/
def currentMultiplierProductDouble (multipliers : List Multiplier) : ℚ :=
  let active := multipliers.filter (fun m => m.active)
  if active.length = 0 then 1
  else active.foldl (fun prod m => fmul prod (m.value.orElse 1)) 1

/-! ## The `categories` object (lines 283-285) -/

/-- The names of the function-valued properties of `Object.prototype`, which
every plain object inherits. -/
def objectPrototypeFunctions : List String :=
  ["constructor", "hasOwnProperty", "isPrototypeOf", "propertyIsEnumerable",
   "toLocaleString", "toString", "valueOf", "__defineGetter__", "__defineSetter__",
   "__lookupGetter__", "__lookupSetter__"]

/-- The text a built-in function converts to when `+` is applied to it, for the
function found under `name` on `Object.prototype` (`constructor` is the function
`Object`); the white space inside it is the one V8 prints. -/
def nativeFunctionText (name : String) : String :=
  "function " ++ (if name = "constructor" then "Object" else name) ++
    "() \x7b [native code] \x7d"

/-- What the read `categories[cat]` yields. -/
inductive CatRead where
  | undefined : CatRead
  | num (q : ℚ) : CatRead
  | str (s : String) : CatRead
  | inheritedFunction (name : String) : CatRead
  | objectPrototype : CatRead
  deriving DecidableEq, Repr

/-- The read `categories[cat]`: the own property when there is one, otherwise
the property inherited from `Object.prototype` (one of its functions, or the
prototype itself for `__proto__`), otherwise `undefined`. -/
def readCategory (cat : String) (categories : List (String × CatValue)) : CatRead :=
  match dictGet cat categories with
  | some (.num q) => .num q
  | some (.str s) => .str s
  | none =>
    if cat ∈ objectPrototypeFunctions then .inheritedFunction cat
    else if cat = "__proto__" then .objectPrototype
    else .undefined

/-- Lines 284-285, `if (!categories[cat]) categories[cat] = 0;` followed by
`categories[cat] += gained;`, by the value the first read yields.
* `undefined`, the number `0`, the empty string: falsy, so `0` is written and
  the gain is added to it.
* Another number: the gain is added to it.
* A non-empty string: truthy, and `+=` appends the text of the gain.
* An inherited function: truthy, so no `0` is written; `+=` converts the
  function to its text, appends the text of the gain and stores the string as
  an own property.
* `Object.prototype`, read through the inherited accessor `__proto__`: truthy;
  `+=` hands a string to the accessor's setter, which ignores it, so nothing is
  stored. -/
def addToCategory (cat : String) (gained : ℚ) (categories : List (String × CatValue)) :
    List (String × CatValue) :=
  match readCategory cat categories with
  | .undefined => dictSet cat (.num (0 + gained)) (dictSet cat (.num 0) categories)
  | .num q =>
    if q ≠ 0 then dictSet cat (.num (q + gained)) categories
    else dictSet cat (.num (0 + gained)) (dictSet cat (.num 0) categories)
  | .str t =>
    if t ≠ "" then dictSet cat (.str (t ++ numberText gained)) categories
    else dictSet cat (.num (0 + gained)) (dictSet cat (.num 0) categories)
  | .inheritedFunction name =>
    dictSet cat (.str (nativeFunctionText name ++ numberText gained)) categories
  | .objectPrototype => categories

/-! ## Dashboard handlers (lines 228-233 and 272-293) -/

/-- The multiplier button's click handler (lines 228-233), for the multiplier
rendered at position `j`: `m.active = !m.active`, then, after `saveState()` and
`renderMultipliers()`, `renderTotals()`. -/
def toggleMultiplier (key : String) (j : Nat) (s : State) : State :=
  match s.multipliers[j]? with
  | none => s
  | some m =>
    renderTotals key
      { s with multipliers := s.multipliers.set j { m with active := !m.active } }

/-- The expression `a.category || "Uncategorized"` (line 283). -/
def categoryOf (a : Action) : String :=
  if a.category = "" then "Uncategorized" else a.category

/-- The points gained by one activation (lines 273-274):
`Number(a.basePoints || 0) * currentMultiplierProduct()`. -/
def gainOf (multipliers : List Multiplier) (a : Action) : ℚ :=
  a.basePoints.orElse 0 * currentMultiplierProduct multipliers

/-- The action button's click handler (lines 272-293), for the action rendered
at position `i`, on the day whose date key is `key`.  The `renderTotals()` call
that follows finds the bucket the handler has just written. -/
def recordActivation (key : String) (i : Nat) (s : State) : State :=
  match s.actions[i]? with
  | none => s
  | some a =>
    let gained := gainOf s.multipliers a
    let totals := match dictGet key s.dailyTotals with
      | some b => b
      | none => emptyBucket
    let totalPoints := totals.totalPoints + gained
    let cat := categoryOf a
    let categories := addToCategory cat gained totals.categories
    { actions := s.actions.set i { a with countToday := some (a.countToday.getD 0 + 1) },
      multipliers := s.multipliers,
      dailyTotals :=
        dictSet key { totalPoints := totalPoints, categories := categories } s.dailyTotals }

/-! ## Settings handlers (lines 443-449, 534-542, 597-649, 675-780) -/

/-- The code points removed by `String.prototype.trim`: the white space and
line terminator characters of ECMAScript. -/
def isJSWhiteSpace (c : Char) : Bool :=
  let n := c.toNat
  n = 0x09 || n = 0x0A || n = 0x0B || n = 0x0C || n = 0x0D || n = 0x20 || n = 0xA0 ||
  n = 0x1680 || (0x2000 ≤ n && n ≤ 0x200A) || n = 0x2028 || n = 0x2029 || n = 0x202F ||
  n = 0x205F || n = 0x3000 || n = 0xFEFF

/-- The method `String.prototype.trim`. -/
def jsTrim (s : String) : String :=
  String.mk ((s.data.dropWhile isJSWhiteSpace).reverse.dropWhile isJSWhiteSpace).reverse

/-- The expression `x || d` on strings: the empty string is falsy. -/
def strOr (x d : String) : String := if x = "" then d else x

/-- In-place update of the object returned by `Array.prototype.find`: the first
element satisfying `p` is replaced by its image under `f`. -/
def modifyFirst {α : Type} (p : α → Bool) (f : α → α) : List α → List α
  | [] => []
  | x :: xs => if p x then f x :: xs else x :: modifyFirst p f xs

/-- What the modal is editing: the variable `modalContext` (line 164). -/
inductive ModalType where
  | action
  | multiplier
  deriving DecidableEq, Repr

/-- The modal's save handler (lines 597-649).  `points` is the value of
`Number(modalPointsInput.value || 0)`.  The multiplier branch ends with
`renderTotals()` (line 645); the action branch does not call it. -/
def modalSave (key : String) (modalContext : Option (ModalType × String))
    (nameInput : String) (points : JSNum) (categoryInput colorInput : String) (s : State) :
    State :=
  match modalContext with
  | none => s
  | some (ty, id) =>
    let name := jsTrim nameInput
    let color := strOr colorInput "#38bdf8"
    if name = "" then s
    else
      match ty with
      | .action =>
        match s.actions.find? (fun a => a.id = id) with
        | none => s
        | some _ =>
          let basePoints := points
          if !basePoints.truthy || basePoints.leZero then s
          else
            let category := strOr (jsTrim categoryInput) "Uncategorized"
            let update : Action → Action := fun a =>
              { a with name := name, basePoints := basePoints, category := category,
                       color := color }
            { s with actions := modifyFirst (fun a => a.id = id) update s.actions }
      | .multiplier =>
        match s.multipliers.find? (fun m => m.id = id) with
        | none => s
        | some _ =>
          let value := points
          if !value.truthy || value.leZero then s
          else
            let update : Multiplier → Multiplier := fun m =>
              { m with name := name, value := value, color := color }
            renderTotals key
              { s with multipliers := modifyFirst (fun m => m.id = id) update s.multipliers }

/-- The add-action handler (lines 675-703).  `basePoints` is the value of
`Number(actionPointsInput.value || 0)`. -/
def addAction (randomId : String → String) (nameInput : String) (basePoints : JSNum)
    (categoryInput colorInput : String) (s : State) : State :=
  let name := jsTrim nameInput
  let category := jsTrim categoryInput
  let color := strOr colorInput "#38bdf8"
  if name = "" || basePoints.leZero then s
  else
    let newAction : Action :=
      { id := randomId "a", name := name, basePoints := basePoints,
        category := strOr category "Uncategorized", color := color, countToday := some 0 }
    { s with actions := s.actions ++ [newAction] }

/-- The add-multiplier handler (lines 720-746).  `value` is the value of
`Number(multiplierValueInput.value || 0)`.  The handler ends with
`renderTotals()` (line 742). -/
def addMultiplier (randomId : String → String) (key : String) (nameInput : String)
    (value : JSNum) (colorInput : String) (s : State) : State :=
  let name := jsTrim nameInput
  let color := strOr colorInput "#f97316"
  if name = "" || value.leZero then s
  else
    let newMultiplier : Multiplier :=
      { id := randomId "m", name := name, value := value, color := color, active := false }
    renderTotals key { s with multipliers := s.multipliers ++ [newMultiplier] }

/-- The delete handler of an action row (lines 443-449); `confirmed` is the
answer to the `confirm` dialog. -/
def removeAction (confirmed : Bool) (id : String) (s : State) : State :=
  if !confirmed then s
  else { s with actions := s.actions.filter (fun x => x.id ≠ id) }

/-- The delete handler of a multiplier row (lines 535-542), which ends with
`renderTotals()` (line 541). -/
def removeMultiplier (key : String) (confirmed : Bool) (id : String) (s : State) : State :=
  if !confirmed then s
  else renderTotals key { s with multipliers := s.multipliers.filter (fun x => x.id ≠ id) }

/-- The reset-actions handler (lines 705-718). -/
def resetActions (confirmed : Bool) (s : State) : State :=
  if !confirmed then s
  else { s with actions := defaultActions.map (fun a => { a with countToday := some 0 }) }

/-- The reset-multipliers handler (lines 748-761), which ends with
`renderTotals()` (line 760). -/
def resetMultipliers (key : String) (confirmed : Bool) (s : State) : State :=
  if !confirmed then s
  else renderTotals key { s with multipliers := defaultMultipliers }

/-! ## Reordering by drag and drop (lines 420-435 and 512-527) -/

/-- The start position `Array.prototype.splice` computes from its first
argument for an array of length `len`: a negative `start` counts from the end,
and the result is clamped to the range from `0` to `len`. -/
def spliceStart (len : Nat) (start : Int) : Nat :=
  if start < 0 then (Int.ofNat len + start).toNat else min start.toNat len

/-- The call `arr.splice(start, 1)`: the array of removed elements, and the
array as it is left. -/
def spliceRemove {α : Type} (arr : List α) (start : Int) : List α × List α :=
  let actualStart := spliceStart arr.length start
  let deleteCount := min 1 (arr.length - actualStart)
  ((arr.drop actualStart).take deleteCount,
   arr.take actualStart ++ arr.drop (actualStart + deleteCount))

/-- The call `arr.splice(start, 0, item)`: the array as it is left. -/
def spliceInsert {α : Type} (arr : List α) (start : Int) (item : α) : List α :=
  let actualStart := spliceStart arr.length start
  arr.take actualStart ++ item :: arr.drop actualStart

/-- The reorder step of the `dragover` handlers (lines 420-435, 512-527) on the
sequence `seq`.  `undefined` is the value read from index `0` of an empty array
of removed elements. -/
def reorder {α : Type} (undefined : α) (seq : List α) (draggingIndex targetIndex : Int) :
    List α :=
  if draggingIndex = -1 then seq
  else if targetIndex = -1 ∨ targetIndex = draggingIndex then seq
  else
    let removed := (spliceRemove seq draggingIndex).1
    let rest := (spliceRemove seq draggingIndex).2
    let item := removed.headD undefined
    spliceInsert rest targetIndex item

/-! ## Persistence (lines 51-71) -/

/-- A JavaScript value, as `JSON.parse` returns it or as a property read yields it. -/
inductive JSValue where
  | undefined : JSValue
  | null : JSValue
  | bool (b : Bool) : JSValue
  | num (n : JSNum) : JSValue
  | str (s : String) : JSValue
  | arr (items : List JSValue) : JSValue
  | obj (fields : List (String × JSValue)) : JSValue

/-- The exceptions the loader can meet. -/
inductive JSError where
  | syntaxError
  | typeError
  deriving DecidableEq, Repr

/-- Truthiness of a value (`ToBoolean`). -/
def JSValue.truthy : JSValue → Bool
  | .undefined => false
  | .null => false
  | .bool b => b
  | .num n => n.truthy
  | .str s => decide (s ≠ "")
  | .arr _ => true
  | .obj _ => true

/-- The expression `v || d`. -/
def JSValue.orElse (v d : JSValue) : JSValue := if v.truthy then v else d

/-- The property read `v.name`, for a name that no built-in prototype defines
(here `actions`, `multipliers`, `dailyTotals`): a `TypeError` on `null` and
`undefined`, the own property of an object, and `undefined` otherwise. -/
def JSValue.getProp (v : JSValue) (name : String) : Except JSError JSValue :=
  match v with
  | .undefined => .error .typeError
  | .null => .error .typeError
  | .obj fields => .ok ((dictGet name fields).getD .undefined)
  | _ => .ok .undefined

/-- An action as a JavaScript object. -/
def Action.toJS (a : Action) : JSValue :=
  .obj ([("id", .str a.id), ("name", .str a.name), ("basePoints", .num a.basePoints),
         ("category", .str a.category), ("color", .str a.color)] ++
        (match a.countToday with
         | some c => [("countToday", .num (.fin c))]
         | none => []))

/-- A multiplier as a JavaScript object. -/
def Multiplier.toJS (m : Multiplier) : JSValue :=
  .obj [("id", .str m.id), ("name", .str m.name), ("value", .num m.value),
        ("color", .str m.color), ("active", .bool m.active)]

/-- A value of `categories` as a JavaScript value. -/
def CatValue.toJS : CatValue → JSValue
  | .num q => .num (.fin q)
  | .str s => .str s

/-- A daily bucket as a JavaScript object. -/
def DailyBucket.toJS (b : DailyBucket) : JSValue :=
  .obj [("totalPoints", .num (.fin b.totalPoints)),
        ("categories", .obj (b.categories.map (fun kv => (kv.1, kv.2.toJS))))]

/-- The root state as a JavaScript object. -/
def State.toJS (s : State) : JSValue :=
  .obj [("actions", .arr (s.actions.map Action.toJS)),
        ("multipliers", .arr (s.multipliers.map Multiplier.toJS)),
        ("dailyTotals", .obj (s.dailyTotals.map (fun kv => (kv.1, kv.2.toJS))))]

/-- The body of the `try` block of `loadState` (lines 53-62).  `raw` is the
result of `localStorage.getItem(STORAGE_KEY)`, `none` standing for `null`. -/
def loadStateTry (parse : String → Except JSError JSValue) (raw : Option String) :
    Except JSError JSValue :=
  match raw with
  | none => .ok defaultState.toJS
  | some text =>
    if text = "" then .ok defaultState.toJS
    else do
      let parsed ← parse text
      let actions ← parsed.getProp "actions"
      let multipliers ← parsed.getProp "multipliers"
      let dailyTotals ← parsed.getProp "dailyTotals"
      pure (.obj [("actions", actions.orElse (.arr (defaultState.actions.map Action.toJS))),
                  ("multipliers",
                    multipliers.orElse (.arr (defaultState.multipliers.map Multiplier.toJS))),
                  ("dailyTotals",
                    dailyTotals.orElse
                      (.obj (defaultState.dailyTotals.map (fun kv => (kv.1, kv.2.toJS)))))])

/-- The function `loadState` (lines 51-67): the `try` block, and the default
record when it throws. -/
def loadState (parse : String → Except JSError JSValue) (raw : Option String) :
    Except JSError JSValue :=
  match loadStateTry parse raw with
  | .ok v => .ok v
  | .error _ => .ok defaultState.toJS

/-- The function `saveState` (lines 69-71): the content of the storage slot
after `localStorage.setItem(STORAGE_KEY, JSON.stringify(state))`. -/
def saveState (stringify : JSValue → String) (s : State) : Option String :=
  some (stringify s.toJS)

/-- The clear-all handler (lines 763-780).  `slot` is the content of the storage
slot before the click; the result is the state in memory when the handler
returns, and the content of the slot then.  Line 771 replaces the state by the
default record, line 772 saves it, and the rendering that follows (line 774,
`renderTotals()`) creates the day's bucket in memory. -/
def clearAll (stringify : JSValue → String) (key : String) (confirmed : Bool) (s : State)
    (slot : Option String) : State × Option String :=
  if !confirmed then (s, slot)
  else (renderTotals key defaultState, saveState stringify defaultState)

/-! ## A JSON writer -/

/-- A hexadecimal digit. -/
def hexDigit (d : Nat) : String :=
  String.singleton (Char.ofNat (if d < 10 then 48 + d else 87 + d))

/-- The text `JSON.stringify` writes for one character of a string. -/
def jsonEscape (c : Char) : String :=
  let n := c.toNat
  if n = 34 then "\\\""
  else if n = 92 then "\\\\"
  else if n = 8 then "\\b"
  else if n = 9 then "\\t"
  else if n = 10 then "\\n"
  else if n = 12 then "\\f"
  else if n = 13 then "\\r"
  else if n < 32 then "\\u00" ++ hexDigit (n / 16) ++ hexDigit (n % 16)
  else String.singleton c

/-- The text `JSON.stringify` writes for a string. -/
def jsonQuote (s : String) : String :=
  "\"" ++ String.join (s.data.map jsonEscape) ++ "\""

/-- The texts of a list, separated by commas. -/
def joinComma : List String → String
  | [] => ""
  | [x] => x
  | x :: rest => x ++ "," ++ joinComma rest

mutual
/-- The text `JSON.stringify` writes for a value: numbers in plain decimal
notation, `NaN` as `null`, `undefined` as `null` inside an array, a property
whose value is `undefined` left out, the properties of an object in the order
of the list (JavaScript lists keys that look like array indices first; the
documents written here have no such key). -/
def jsonStringify : JSValue → String
  | .undefined => "null"
  | .null => "null"
  | .bool b => if b then "true" else "false"
  | .num .nan => "null"
  | .num (.fin q) => numberText q
  | .str s => jsonQuote s
  | .arr items => "[" ++ joinComma (jsonItems items) ++ "]"
  | .obj fields => "\x7b" ++ joinComma (jsonFields fields) ++ "\x7d"
/-- The texts of the elements of an array. -/
def jsonItems : List JSValue → List String
  | [] => []
  | v :: rest => jsonStringify v :: jsonItems rest
/-- The texts of the properties of an object. -/
def jsonFields : List (String × JSValue) → List String
  | [] => []
  | (_, .undefined) :: rest => jsonFields rest
  | (k, v) :: rest => (jsonQuote k ++ ":" ++ jsonStringify v) :: jsonFields rest
end

/-- The inverse of `jsonStringify` on the documents `docs`: the first of them
whose text is `text`, and a `SyntaxError` when there is none.  It stands in for
`JSON.parse` on the texts `jsonStringify` writes for these documents. -/
def parseBack (docs : List JSValue) (text : String) : Except JSError JSValue :=
  match docs.find? (fun d => decide (jsonStringify d = text)) with
  | some d => .ok d
  | none => .error .syntaxError

/-! ## Event sequences -/

/-- A user event on the dashboard or in the edit-action modal. -/
inductive Event where
  | activate (i : Nat) : Event
  | toggle (j : Nat) : Event
  | editAction (id nameInput : String) (points : JSNum) (categoryInput colorInput : String) :
      Event
  deriving DecidableEq, Repr

/-- The handler an event runs, on the day `key`. -/
def step (key : String) (s : State) : Event → State
  | .activate i => recordActivation key i s
  | .toggle j => toggleMultiplier key j s
  | .editAction id nameInput points categoryInput colorInput =>
      modalSave key (some (.action, id)) nameInput points categoryInput colorInput s

/-- The state after a sequence of events, handled in order on the day `key`. -/
def run (key : String) (s : State) (events : List Event) : State :=
  events.foldl (step key) s

/-- The day's total as the program reads it: `getTodayTotals().totalPoints`. -/
def dayTotal (key : String) (s : State) : ℚ :=
  (getTodayTotals key s).1.totalPoints

/-- The day's category mapping as the program reads it:
`getTodayTotals().categories`. -/
def dayCategories (key : String) (s : State) : List (String × CatValue) :=
  (getTodayTotals key s).1.categories

/-! ## Specification-side quantities -/

/-- The product of `value` over the multipliers with `active = true`, in
JavaScript arithmetic; the empty product is `1`. -/
def activeValueProduct (multipliers : List Multiplier) : JSNum :=
  ((multipliers.filter (fun m => m.active)).map (fun m => m.value)).foldr JSNum.mul (.fin 1)

/-- The sum, over the activations of an event sequence started in `s`, of the
action's `basePoints` times the product of the values of the multipliers active
at that moment. -/
def expectedTotal (key : String) (s : State) : List Event → JSNum
  | [] => .fin 0
  | .activate i :: rest =>
    match s.actions[i]? with
    | some a =>
      JSNum.add (JSNum.mul a.basePoints (activeValueProduct s.multipliers))
        (expectedTotal key (step key s (.activate i)) rest)
    | none => expectedTotal key (step key s (.activate i)) rest
  | e :: rest => expectedTotal key (step key s e) rest

/-- The sum of the gains of the activations of an event sequence started in `s`. -/
def gainSum (key : String) (s : State) : List Event → ℚ
  | [] => 0
  | .activate i :: rest =>
    (match s.actions[i]? with
     | some a => gainOf s.multipliers a
     | none => 0) + gainSum key (step key s (.activate i)) rest
  | e :: rest => gainSum key (step key s e) rest

/-- The number held under `c`, an absent entry and an entry that is not a
number counting as `0`. -/
def categoryNumber (c : String) (categories : List (String × CatValue)) : ℚ :=
  match dictGet c categories with
  | some (.num q) => q
  | _ => 0

/-- The numbers held by a `categories` mapping, when all its values are numbers. -/
def categoryNumbers : List (String × CatValue) → Option (List ℚ)
  | [] => some []
  | (_, .num q) :: rest => (categoryNumbers rest).map (fun qs => q :: qs)
  | (_, .str _) :: _ => none

/-- A bucket is consistent when the values of its `categories` are numbers and
its `totalPoints` is their sum. -/
def BucketConsistent (b : DailyBucket) : Prop :=
  ∃ qs, categoryNumbers b.categories = some qs ∧ b.totalPoints = qs.sum

/-- A category name that no plain object inherits a property for. -/
def OrdinaryCategory (c : String) : Prop :=
  c ∉ objectPrototypeFunctions ∧ c ≠ "__proto__"

/-- Every action has a strictly positive `basePoints` and every multiplier a
strictly positive `value`. -/
def PositiveState (s : State) : Prop :=
  (∀ a ∈ s.actions, a.basePoints.IsPositive) ∧ (∀ m ∈ s.multipliers, m.value.IsPositive)

/-- The day's bucket is absent, or is the empty bucket. -/
def FreshDay (key : String) (s : State) : Prop :=
  dictGet key s.dailyTotals = none ∨ dictGet key s.dailyTotals = some emptyBucket

/-- The event is an activation of an action of the state, or a toggle of a
multiplier of the state. -/
def Event.OnDashboard (s : State) : Event → Prop
  | .activate i => i < s.actions.length
  | .toggle j => j < s.multipliers.length
  | .editAction _ _ _ _ _ => False

/-- The field a loaded record takes from the fields of a parsed object: the
stored value when the field is present with a truthy value, and the default
`d` otherwise. -/
def storedOrDefault (fields : List (String × JSValue)) (name : String) (d : JSValue) :
    JSValue :=
  match dictGet name fields with
  | some v => if v.truthy then v else d
  | none => d

/-- The text `JSON.stringify` writes for the default record. -/
def defaultStateText : String :=
  "\x7b\"actions\":[" ++
  "\x7b\"id\":\"a1\",\"name\":\"Deep work (25 min)\",\"basePoints\":10," ++
  "\"category\":\"Focus\",\"color\":\"#38bdf8\",\"countToday\":0\x7d," ++
  "\x7b\"id\":\"a2\",\"name\":\"Workout session\",\"basePoints\":20," ++
  "\"category\":\"Health\",\"color\":\"#22c55e\",\"countToday\":0\x7d," ++
  "\x7b\"id\":\"a3\",\"name\":\"Social connection\",\"basePoints\":8," ++
  "\"category\":\"Social\",\"color\":\"#f97316\",\"countToday\":0\x7d]," ++
  "\"multipliers\":[" ++
  "\x7b\"id\":\"m1\",\"name\":\"Power hour\",\"value\":2," ++
  "\"color\":\"#f97316\",\"active\":false\x7d," ++
  "\x7b\"id\":\"m2\",\"name\":\"Flow state\",\"value\":1.5," ++
  "\"color\":\"#a855f7\",\"active\":false\x7d]," ++
  "\"dailyTotals\":\x7b\x7d\x7d"

/-- The text of a stored document whose `actions` field is present and `false`. -/
def falseActionsText : String := "\x7b\"actions\":false\x7d"

/-- A stand-in for `JSON.parse` that gives its result on the two texts above;
it is used on those two texts only. -/
def parseSample (text : String) : Except JSError JSValue :=
  if text = defaultStateText then .ok defaultState.toJS
  else if text = falseActionsText then .ok (.obj [("actions", .bool false)])
  else .error .syntaxError

/-- A stand-in for `randomId`: the prefix followed by a fixed suffix. -/
def sampleId (pre : String) : String := pre ++ "k3x9q1z2"

/-! ## Example states -/

/-- A multiplier that is active and whose stored value is `0`. -/
def zeroBoost : Multiplier :=
  { id := "m0", name := "Zero", value := .fin 0, color := "#f97316", active := true }

/-- The seed of the first scenario: one action worth 10 points and one
inactive multiplier of value 2. -/
def scenarioState : State :=
  { actions := [{ id := "a1", name := "Deep work", basePoints := .fin 10,
                  category := "Focus", color := "#38bdf8", countToday := some 0 }],
    multipliers := [{ id := "m1", name := "Power hour", value := .fin 2,
                      color := "#f97316", active := false }],
    dailyTotals := [] }

/-- The seed multipliers, both switched on (values 2 and 1.5). -/
def bothActive : List Multiplier :=
  defaultMultipliers.map (fun m => { m with active := true })

/-- A day of the first scenario in which the action is moved to another
category between activations: activate, rename the category from "Focus" to
"Deep", activate, switch the multiplier on, activate. -/
def renameScenario : List Event :=
  [.activate 0, .editAction "a1" "Deep work" (.fin 10) "Deep" "#38bdf8", .activate 0,
   .toggle 0, .activate 0]


/-- Three active multipliers whose values are the binary64 numbers written
`v1`, `v2`, `v3` in a form field. -/
def boosts (v1 v2 v3 : ℚ) : List Multiplier :=
  [{ id := "m1", name := "First", value := .fin (roundToDouble v1), color := "#f97316",
     active := true },
   { id := "m2", name := "Second", value := .fin (roundToDouble v2), color := "#f97316",
     active := true },
   { id := "m3", name := "Third", value := .fin (roundToDouble v3), color := "#f97316",
     active := true }]

/-- The state in memory after `init()` on 14 March 2025 with an empty storage
slot: the default record with that day's empty bucket. -/
def afterInit : State := renderTotals "2025-03-14" defaultState

/-- The state after the first seed action was activated on 14 March 2025. -/
def dayOne : State := recordActivation "2025-03-14" 0 afterInit

/-- The default record with a fourth action, worth 10 points, added through the
form with the category text `constructor`. -/
def withConstructorAction : State :=
  addAction sampleId "Run" (.fin 10) "constructor" "" afterInit

/-- The default record with a fourth action, worth 10 points, added through the
form with the category text `__proto__`. -/
def withProtoAction : State :=
  addAction sampleId "Run" (.fin 10) "__proto__" "" afterInit

/-- A state whose one action, worth 10 points, has an empty category. -/
def withEmptyCategory : State :=
  { actions := [{ id := "a1", name := "Walk", basePoints := .fin 10, category := "",
                  color := "#38bdf8", countToday := some 0 }],
    multipliers := [],
    dailyTotals := [] }

/-! ## Dictionary lemmas -/

theorem dictGet_dictSet_self {β : Type} (key : String) (v : β) (l : List (String × β)) :
    dictGet key (dictSet key v l) = some v := by
  induction l with
  | nil => simp [dictSet, dictGet]
  | cons kv rest ih =>
    obtain ⟨k, w⟩ := kv
    by_cases h : k = key
    · simp [dictSet, dictGet, h]
    · simp [dictSet, dictGet, h, ih]

theorem dictGet_dictSet_ne {β : Type} (key other : String) (v : β) (l : List (String × β))
    (h : other ≠ key) : dictGet other (dictSet key v l) = dictGet other l := by
  induction l with
  | nil => simp [dictSet, dictGet, Ne.symm h]
  | cons kv rest ih =>
    obtain ⟨k, w⟩ := kv
    by_cases hk : k = key
    · subst hk
      simp [dictSet, dictGet, Ne.symm h]
    · by_cases ho : k = other
      · subst ho
        simp [dictSet, dictGet, h]
      · simp [dictSet, dictGet, hk, ho, ih]

/-! ## The multiplier product -/

theorem foldl_mul_eq_prod {α : Type} (f : α → ℚ) (l : List α) (c : ℚ) :
    l.foldl (fun prod m => prod * f m) c = c * (l.map f).prod := by
  induction l generalizing c with
  | nil => simp
  | cons x xs ih => simp [ih, mul_assoc]

theorem currentMultiplierProduct_eq_prod (ms : List Multiplier) :
    currentMultiplierProduct ms =
      ((ms.filter (fun m => m.active)).map (fun m => m.value.orElse 1)).prod := by
  unfold currentMultiplierProduct
  simp only [foldl_mul_eq_prod, one_mul]
  split
  · rename_i h
    rw [List.length_eq_zero.mp h]
    simp
  · rfl

theorem orElse_of_truthy (x : JSNum) (d : ℚ) (h : x.truthy = true) :
    JSNum.fin (x.orElse d) = x := by
  cases x with
  | nan => simp [JSNum.truthy] at h
  | fin q =>
    simp only [JSNum.truthy, decide_eq_true_eq] at h
    simp [JSNum.orElse, h]

theorem fin_prod_eq_activeValueProduct (l : List Multiplier)
    (h : ∀ m ∈ l, m.value.truthy = true) :
    JSNum.fin ((l.map (fun m => m.value.orElse 1)).prod) =
      (l.map (fun m => m.value)).foldr JSNum.mul (.fin 1) := by
  induction l with
  | nil => simp
  | cons x xs ih =>
    have hx := orElse_of_truthy x.value 1 (h x (List.mem_cons_self _ _))
    have hxs := ih (fun m hm => h m (List.mem_cons_of_mem _ hm))
    simp only [List.map_cons, List.prod_cons, List.foldr_cons]
    rw [← hxs, ← hx]
    simp [JSNum.mul, hx]

theorem currentMultiplierProduct_of_truthy (ms : List Multiplier)
    (h : ∀ m ∈ ms, m.active = true → m.value.truthy = true) :
    JSNum.fin (currentMultiplierProduct ms) = activeValueProduct ms := by
  rw [currentMultiplierProduct_eq_prod]
  unfold activeValueProduct
  apply fin_prod_eq_activeValueProduct
  intro m hm
  rw [List.mem_filter] at hm
  exact h m hm.1 (by simpa using hm.2)

theorem currentMultiplierProduct_perm (ms ms' : List Multiplier) (h : ms.Perm ms') :
    currentMultiplierProduct ms = currentMultiplierProduct ms' := by
  rw [currentMultiplierProduct_eq_prod, currentMultiplierProduct_eq_prod]
  exact ((h.filter _).map _).prod_eq

theorem isPositive_truthy (x : JSNum) (h : x.IsPositive) : x.truthy = true := by
  obtain ⟨q, hq, rfl⟩ := h
  simp [JSNum.truthy, ne_of_gt hq]

/-! ## One activation -/

theorem recordActivation_of_none (key : String) (i : Nat) (s : State)
    (h : s.actions[i]? = none) : recordActivation key i s = s := by
  simp [recordActivation, h]

theorem recordActivation_actions (key : String) (i : Nat) (s : State) (a : Action)
    (h : s.actions[i]? = some a) :
    (recordActivation key i s).actions =
      s.actions.set i { a with countToday := some (a.countToday.getD 0 + 1) } := by
  simp [recordActivation, h]

theorem recordActivation_multipliers (key : String) (i : Nat) (s : State) :
    (recordActivation key i s).multipliers = s.multipliers := by
  unfold recordActivation
  split <;> rfl

theorem dayTotal_eq (key : String) (s : State) :
    dayTotal key s = ((dictGet key s.dailyTotals).getD emptyBucket).totalPoints := by
  unfold dayTotal getTodayTotals
  cases dictGet key s.dailyTotals <;> rfl

theorem dayCategories_eq (key : String) (s : State) :
    dayCategories key s = ((dictGet key s.dailyTotals).getD emptyBucket).categories := by
  unfold dayCategories getTodayTotals
  cases dictGet key s.dailyTotals <;> rfl

theorem dayTotal_recordActivation (key : String) (i : Nat) (s : State) (a : Action)
    (h : s.actions[i]? = some a) :
    dayTotal key (recordActivation key i s) = dayTotal key s + gainOf s.multipliers a := by
  rw [dayTotal_eq, dayTotal_eq]
  simp only [recordActivation, h, dictGet_dictSet_self, Option.getD_some]
  cases dictGet key s.dailyTotals <;> rfl

theorem dayBucket_renderTotals (key day : String) (s : State) :
    (dictGet day (renderTotals key s).dailyTotals).getD emptyBucket =
      (dictGet day s.dailyTotals).getD emptyBucket := by
  unfold renderTotals getTodayTotals
  cases h : dictGet key s.dailyTotals with
  | some b => rfl
  | none =>
    by_cases hd : day = key
    · subst hd
      simp [dictGet_dictSet_self, h]
    · simp only [dictGet_dictSet_ne key day _ _ hd]

theorem renderTotals_actions (key : String) (s : State) :
    (renderTotals key s).actions = s.actions := by
  unfold renderTotals getTodayTotals
  split <;> rfl

theorem renderTotals_multipliers (key : String) (s : State) :
    (renderTotals key s).multipliers = s.multipliers := by
  unfold renderTotals getTodayTotals
  split <;> rfl

theorem toggleMultiplier_of_none (key : String) (j : Nat) (s : State)
    (h : s.multipliers[j]? = none) : toggleMultiplier key j s = s := by
  simp [toggleMultiplier, h]

theorem toggleMultiplier_of_some (key : String) (j : Nat) (s : State) (m : Multiplier)
    (h : s.multipliers[j]? = some m) :
    toggleMultiplier key j s =
      renderTotals key
        { s with multipliers := s.multipliers.set j { m with active := !m.active } } := by
  simp [toggleMultiplier, h]

theorem dayTotal_toggleMultiplier (key : String) (j : Nat) (s : State) :
    dayTotal key (toggleMultiplier key j s) = dayTotal key s := by
  cases h : s.multipliers[j]? with
  | none => rw [toggleMultiplier_of_none key j s h]
  | some m =>
    rw [toggleMultiplier_of_some key j s m h, dayTotal_eq, dayTotal_eq,
      dayBucket_renderTotals]

theorem dayTotal_step (key : String) (s : State) (e : Event) :
    dayTotal key (step key s e) = dayTotal key s + gainSum key s [e] := by
  cases e with
  | activate i =>
    cases h : s.actions[i]? with
    | none => simp [step, gainSum, recordActivation_of_none key i s h, h]
    | some a => simp [step, gainSum, dayTotal_recordActivation key i s a h, h]
  | toggle j =>
    simp [step, gainSum, dayTotal_toggleMultiplier]
  | editAction id nameInput points categoryInput colorInput =>
    have hd : (modalSave key (some (.action, id)) nameInput points categoryInput colorInput
        s).dailyTotals = s.dailyTotals := by
      simp only [modalSave]
      repeat' split
      all_goals rfl
    simp [step, gainSum, dayTotal_eq, hd]

theorem gainSum_cons (key : String) (s : State) (e : Event) (rest : List Event) :
    gainSum key s (e :: rest) = gainSum key s [e] + gainSum key (step key s e) rest := by
  cases e <;> simp [gainSum]

/-- The day's total after a run is the total before it plus the gains of the
activations of the run. -/
theorem dayTotal_run (key : String) (s : State) (events : List Event) :
    dayTotal key (run key s events) = dayTotal key s + gainSum key s events := by
  induction events generalizing s with
  | nil => simp [run, gainSum]
  | cons e rest ih =>
    have h := ih (step key s e)
    simp only [run, List.foldl_cons] at h ⊢
    rw [h, dayTotal_step, gainSum_cons key s e rest]
    ring

/-! ## Positive states and dashboard events -/

theorem positiveState_recordActivation (key : String) (i : Nat) (s : State)
    (h : PositiveState s) : PositiveState (recordActivation key i s) := by
  cases ha : s.actions[i]? with
  | none => rw [recordActivation_of_none key i s ha]; exact h
  | some a =>
    refine ⟨?_, ?_⟩
    · rw [recordActivation_actions key i s a ha]
      intro b hb
      rcases List.mem_or_eq_of_mem_set hb with hb | hb
      · exact h.1 b hb
      · subst hb
        exact h.1 a (List.getElem?_mem ha)
    · rw [recordActivation_multipliers]
      exact h.2

theorem toggleMultiplier_actions (key : String) (j : Nat) (s : State) :
    (toggleMultiplier key j s).actions = s.actions := by
  cases h : s.multipliers[j]? with
  | none => rw [toggleMultiplier_of_none key j s h]
  | some m => rw [toggleMultiplier_of_some key j s m h, renderTotals_actions]

theorem toggleMultiplier_multipliers (key : String) (j : Nat) (s : State) (m : Multiplier)
    (h : s.multipliers[j]? = some m) :
    (toggleMultiplier key j s).multipliers =
      s.multipliers.set j { m with active := !m.active } := by
  rw [toggleMultiplier_of_some key j s m h, renderTotals_multipliers]

theorem toggleMultiplier_length (key : String) (j : Nat) (s : State) :
    (toggleMultiplier key j s).multipliers.length = s.multipliers.length := by
  cases h : s.multipliers[j]? with
  | none => rw [toggleMultiplier_of_none key j s h]
  | some m => rw [toggleMultiplier_multipliers key j s m h, List.length_set]

theorem positiveState_toggleMultiplier (key : String) (j : Nat) (s : State)
    (h : PositiveState s) : PositiveState (toggleMultiplier key j s) := by
  cases hm : s.multipliers[j]? with
  | none => rw [toggleMultiplier_of_none key j s hm]; exact h
  | some m =>
    refine ⟨?_, ?_⟩
    · rw [toggleMultiplier_actions]
      exact h.1
    · rw [toggleMultiplier_multipliers key j s m hm]
      intro b hb
      rcases List.mem_or_eq_of_mem_set hb with hb | hb
      · exact h.2 b hb
      · subst hb
        exact h.2 m (List.getElem?_mem hm)

theorem recordActivation_length (key : String) (i : Nat) (s : State) :
    (recordActivation key i s).actions.length = s.actions.length := by
  cases ha : s.actions[i]? with
  | none => rw [recordActivation_of_none key i s ha]
  | some a => rw [recordActivation_actions key i s a ha]; simp

theorem onDashboard_step (key : String) (s : State) (e e' : Event)
    (he : e.OnDashboard s) (he' : e'.OnDashboard s) : e'.OnDashboard (step key s e) := by
  cases e with
  | activate i =>
    cases e' with
    | activate k => simpa [Event.OnDashboard, step, recordActivation_length] using he'
    | toggle k => simpa [Event.OnDashboard, step, recordActivation_multipliers] using he'
    | editAction _ _ _ _ _ => exact he'
  | toggle j =>
    cases e' with
    | activate k => simpa [Event.OnDashboard, step, toggleMultiplier_actions] using he'
    | toggle k => simpa [Event.OnDashboard, step, toggleMultiplier_length] using he'
    | editAction _ _ _ _ _ => exact he'
  | editAction _ _ _ _ _ => exact he.elim

theorem positiveState_step (key : String) (s : State) (e : Event) (he : e.OnDashboard s)
    (h : PositiveState s) : PositiveState (step key s e) := by
  cases e with
  | activate i => exact positiveState_recordActivation key i s h
  | toggle j => exact positiveState_toggleMultiplier key j s h
  | editAction _ _ _ _ _ => exact he.elim

theorem expected_gain_eq (s : State) (a : Action) (h : PositiveState s) (ha : a ∈ s.actions) :
    JSNum.mul a.basePoints (activeValueProduct s.multipliers) =
      JSNum.fin (gainOf s.multipliers a) := by
  have hm : JSNum.fin (currentMultiplierProduct s.multipliers) =
      activeValueProduct s.multipliers :=
    currentMultiplierProduct_of_truthy s.multipliers
      (fun m hm _ => isPositive_truthy m.value (h.2 m hm))
  have hb : JSNum.fin (a.basePoints.orElse 0) = a.basePoints :=
    orElse_of_truthy a.basePoints 0 (isPositive_truthy a.basePoints (h.1 a ha))
  rw [← hm, ← hb]
  simp [JSNum.mul, gainOf, hb]

/-- On a positive state, the specified sum of a run of dashboard events is the
sum of the gains the handlers computed. -/
theorem expectedTotal_eq_gainSum (key : String) (s : State) (events : List Event)
    (h : PositiveState s) (hev : ∀ e ∈ events, e.OnDashboard s) :
    expectedTotal key s events = JSNum.fin (gainSum key s events) := by
  induction events generalizing s with
  | nil => simp [expectedTotal, gainSum]
  | cons e rest ih =>
    have he : e.OnDashboard s := hev e (List.mem_cons_self _ _)
    have hrest := ih (step key s e) (positiveState_step key s e he h)
      (fun e' he' => onDashboard_step key s e e' he (hev e' (List.mem_cons_of_mem _ he')))
    cases e with
    | activate i =>
      cases ha : s.actions[i]? with
      | none =>
        simp only [Event.OnDashboard] at he
        simp [List.getElem?_eq_none_iff] at ha
        omega
      | some a =>
        simp only [expectedTotal, gainSum, ha, hrest,
          expected_gain_eq s a h (List.getElem?_mem ha), JSNum.add]
    | toggle j => simp only [expectedTotal, gainSum, hrest]
    | editAction _ _ _ _ _ => exact he.elim

theorem dayTotal_of_freshDay (key : String) (s : State) (h : FreshDay key s) :
    dayTotal key s = 0 := by
  rw [dayTotal_eq]
  rcases h with h | h <;> simp [h, emptyBucket]

/-! ## Claims on the day total and the multiplier product -/

/-- C1: on a state whose actions have positive `basePoints` and whose multipliers
have positive `value`, with the day's bucket absent or empty, after any sequence
of activations and multiplier toggles the day's `totalPoints` (as read through
`getTodayTotals`, and as stored in the bucket when there is one) is the exact
sum, over the activations, of the action's `basePoints` times the product of the
values of the multipliers active at that moment. -/
theorem totalPoints_eq_expectedTotal (key : String) (s : State) (events : List Event)
    (hpos : PositiveState s) (hfresh : FreshDay key s)
    (hev : ∀ e ∈ events, e.OnDashboard s) :
    JSNum.fin (dayTotal key (run key s events)) = expectedTotal key s events ∧
    ∀ b, dictGet key (run key s events).dailyTotals = some b →
      JSNum.fin b.totalPoints = expectedTotal key s events := by
  have h : JSNum.fin (dayTotal key (run key s events)) = expectedTotal key s events := by
    rw [dayTotal_run, dayTotal_of_freshDay key s hfresh,
      expectedTotal_eq_gainSum key s events hpos hev, zero_add]
  refine ⟨h, fun b hb => ?_⟩
  rw [← h, dayTotal_eq, hb, Option.getD_some]

/-- C1 at the scenario of the specification: an action worth 10 points and an
inactive multiplier of value 2; activating gives 10, and after switching the
multiplier on a second activation brings the total to 30. -/
theorem totalPoints_scenario_witness :
    PositiveState scenarioState ∧ FreshDay "2025-03-14" scenarioState ∧
    JSNum.fin (dayTotal "2025-03-14" (run "2025-03-14" scenarioState [.activate 0])) =
      JSNum.fin 10 ∧
    JSNum.fin (dayTotal "2025-03-14"
      (run "2025-03-14" scenarioState [.activate 0, .toggle 0, .activate 0])) = JSNum.fin 30 := by
  have hpos : PositiveState scenarioState := by
    refine ⟨fun a ha => ?_, fun m hm => ?_⟩
    · simp only [scenarioState, List.mem_singleton] at ha
      exact ⟨10, by norm_num, by rw [ha]⟩
    · simp only [scenarioState, List.mem_singleton] at hm
      exact ⟨2, by norm_num, by rw [hm]⟩
  have hfresh : FreshDay "2025-03-14" scenarioState := Or.inl rfl
  refine ⟨hpos, hfresh, ?_, ?_⟩
  · rw [(totalPoints_eq_expectedTotal "2025-03-14" scenarioState [.activate 0] hpos hfresh
      (by simp [Event.OnDashboard, scenarioState])).1]
    decide!
  · rw [(totalPoints_eq_expectedTotal "2025-03-14" scenarioState
      [.activate 0, .toggle 0, .activate 0] hpos hfresh
      (by simp [Event.OnDashboard, scenarioState])).1]
    decide!

theorem currentMultiplierProductDouble_eq_foldl (ms : List Multiplier) :
    currentMultiplierProductDouble ms =
      (ms.filter (fun m => m.active)).foldl (fun prod m => fmul prod (m.value.orElse 1)) 1 := by
  unfold currentMultiplierProductDouble
  simp only []
  split
  · rename_i h
    rw [List.length_eq_zero.mp h]
    rfl
  · rfl

theorem filter_active_eq_nil (ms : List Multiplier) (h : ∀ m ∈ ms, m.active = false) :
    ms.filter (fun m => m.active) = [] := by
  rw [List.filter_eq_nil_iff]
  intro m hm
  simp [h m hm]

/-- C2, as stated, fails twice.  An active multiplier whose value is `0`
contributes the factor `1` (`m.value || 1`), so the result is `1` and not the
product of the values, `0`.  And in binary64 arithmetic the result depends on
the order: three active multipliers with values 1.1, 1.1, 1.9 give
2.2990000000000004 in this order and 2.299 in the reverse order. -/
theorem currentMultiplierProduct_counterexample :
    (currentMultiplierProduct [zeroBoost] = 1 ∧
      currentMultiplierProductDouble [zeroBoost] = 1 ∧
      activeValueProduct [zeroBoost] = JSNum.fin 0 ∧
      JSNum.fin (currentMultiplierProduct [zeroBoost]) ≠ activeValueProduct [zeroBoost]) ∧
    ((boosts (11 / 10) (11 / 10) (19 / 10)).reverse.Perm (boosts (11 / 10) (11 / 10) (19 / 10)) ∧
      currentMultiplierProductDouble (boosts (11 / 10) (11 / 10) (19 / 10)) =
        2588443885831193 / 1125899906842624 ∧
      currentMultiplierProductDouble (boosts (11 / 10) (11 / 10) (19 / 10)).reverse =
        5176887771662385 / 2251799813685248 ∧
      currentMultiplierProductDouble (boosts (11 / 10) (11 / 10) (19 / 10)).reverse ≠
        currentMultiplierProductDouble (boosts (11 / 10) (11 / 10) (19 / 10))) := by
  refine ⟨⟨by decide!, by decide!, by decide!, by decide!⟩,
    ⟨List.reverse_perm _, by decide!, by decide!, by decide!⟩⟩

/-- C2, amended.  With arithmetic taken as exact, `currentMultiplierProduct`
returns the product, over exactly the active multipliers, of `value` with a
value that is `0` or `NaN` counted as `1`; this is the product of `value`
whenever every active multiplier has a non-zero numeric value, and it does not
depend on the order of the sequence.  In binary64 arithmetic it returns the
same factors multiplied from left to right in the order of the sequence, each
product rounded.  In both it is exactly `1` when no multiplier is active. -/
theorem currentMultiplierProduct_guarded (ms : List Multiplier) :
    currentMultiplierProduct ms =
      ((ms.filter (fun m => m.active)).map (fun m => m.value.orElse 1)).prod ∧
    ((∀ m ∈ ms, m.active = true → m.value.truthy = true) →
      JSNum.fin (currentMultiplierProduct ms) = activeValueProduct ms) ∧
    (∀ ms', ms.Perm ms' → currentMultiplierProduct ms' = currentMultiplierProduct ms) ∧
    currentMultiplierProductDouble ms =
      (ms.filter (fun m => m.active)).foldl
        (fun prod m => fmul prod (m.value.orElse 1)) 1 ∧
    ((∀ m ∈ ms, m.active = false) →
      currentMultiplierProduct ms = 1 ∧ currentMultiplierProductDouble ms = 1) := by
  refine ⟨currentMultiplierProduct_eq_prod ms, currentMultiplierProduct_of_truthy ms,
    fun ms' h => (currentMultiplierProduct_perm ms ms' h).symm,
    currentMultiplierProductDouble_eq_foldl ms, fun h => ?_⟩
  have hf := filter_active_eq_nil ms h
  constructor
  · simp [currentMultiplierProduct, hf]
  · simp [currentMultiplierProductDouble, hf]

/-- C2 at the scenario of the specification: with the two seed multipliers both
active (values 2 and 1.5) the product is 3, in exact and in binary64 arithmetic
and in either order, and activating the action worth 10 points gains 30. -/
theorem currentMultiplierProduct_scenario_witness :
    JSNum.fin (currentMultiplierProduct bothActive) = activeValueProduct bothActive ∧
    currentMultiplierProduct bothActive = 3 ∧
    currentMultiplierProduct bothActive.reverse = 3 ∧
    currentMultiplierProductDouble bothActive = 3 ∧
    currentMultiplierProductDouble bothActive.reverse = 3 ∧
    (∀ a ∈ scenarioState.actions, gainOf bothActive a = 30) := by
  have h3 : currentMultiplierProduct bothActive = 3 := by decide!
  refine ⟨(currentMultiplierProduct_guarded bothActive).2.1 ?_, h3, ?_, by decide!,
    by decide!, ?_⟩
  · intro m hm _
    simp only [bothActive, defaultMultipliers, List.map_cons, List.map_nil, List.mem_cons,
      List.mem_singleton, List.not_mem_nil, or_false] at hm
    rcases hm with rfl | rfl <;> simp [JSNum.truthy]
  · rw [(currentMultiplierProduct_guarded bothActive).2.2.1 bothActive.reverse
      (List.reverse_perm bothActive).symm, h3]
  · intro a ha
    simp only [scenarioState, List.mem_singleton] at ha
    subst ha
    rw [gainOf, h3]
    norm_num [JSNum.orElse]

/-! ## The category mapping -/

theorem modalSave_action_dailyTotals (key id nameInput : String) (points : JSNum)
    (categoryInput colorInput : String) (s : State) :
    (modalSave key (some (.action, id)) nameInput points categoryInput colorInput
      s).dailyTotals = s.dailyTotals := by
  simp only [modalSave]
  repeat' split
  all_goals rfl

theorem dayCategories_recordActivation (key : String) (i : Nat) (s : State) (a : Action)
    (h : s.actions[i]? = some a) :
    dayCategories key (recordActivation key i s) =
      addToCategory (categoryOf a) (gainOf s.multipliers a) (dayCategories key s) := by
  have hold : (match dictGet key s.dailyTotals with
      | some b => b
      | none => emptyBucket) = (dictGet key s.dailyTotals).getD emptyBucket := by
    cases dictGet key s.dailyTotals <;> rfl
  rw [dayCategories_eq, dayCategories_eq]
  simp only [recordActivation, h, dictGet_dictSet_self, Option.getD_some, hold]

/-- On a category whose read yields `undefined` or a number, lines 284-285 add
the gain to the number held under it (an absent entry counting as `0`) and
leave every other entry as it is. -/
theorem addToCategory_of_number (cat : String) (gained : ℚ)
    (categories : List (String × CatValue))
    (hread : readCategory cat categories = .undefined ∨
      ∃ q, readCategory cat categories = .num q) :
    dictGet cat (addToCategory cat gained categories) =
        some (.num (categoryNumber cat categories + gained)) ∧
    ∀ c, c ≠ cat →
      dictGet c (addToCategory cat gained categories) = dictGet c categories := by
  unfold addToCategory categoryNumber
  rcases hread with hread | ⟨q, hread⟩
  · have hnone : dictGet cat categories = none := by
      unfold readCategory at hread
      cases hget : dictGet cat categories with
      | none => rfl
      | some v => cases v <;> simp [hget] at hread
    rw [hread]
    refine ⟨by simp [dictGet_dictSet_self, hnone], fun c hne => ?_⟩
    simp only [dictGet_dictSet_ne cat c _ _ hne]
  · have hsome : dictGet cat categories = some (.num q) := by
      unfold readCategory at hread
      cases hget : dictGet cat categories with
      | none =>
        rw [hget] at hread
        simp only at hread
        split at hread
        · exact CatRead.noConfusion hread
        · split at hread <;> exact CatRead.noConfusion hread
      | some v =>
        cases v with
        | num r =>
          rw [hget] at hread
          simp only [CatRead.num.injEq] at hread
          rw [hread]
        | str t =>
          rw [hget] at hread
          exact CatRead.noConfusion hread
    rw [hread]
    by_cases hq : q = 0
    · subst hq
      refine ⟨by simp [dictGet_dictSet_self, hsome], fun c hne => ?_⟩
      simp [dictGet_dictSet_ne cat c _ _ hne]
    · refine ⟨by simp [hq, dictGet_dictSet_self, hsome], fun c hne => ?_⟩
      simp [hq, dictGet_dictSet_ne cat c _ _ hne]

/-- A category name that no plain object inherits, and under which the bucket
holds no string, reads as `undefined` or as a number. -/
theorem readCategory_of_ordinary (cat : String) (categories : List (String × CatValue))
    (hord : OrdinaryCategory cat) (hnum : ∀ t, dictGet cat categories ≠ some (.str t)) :
    readCategory cat categories = .undefined ∨
      ∃ q, readCategory cat categories = .num q := by
  unfold readCategory
  cases hget : dictGet cat categories with
  | none =>
    left
    simp [hord.1, hord.2]
  | some v =>
    cases v with
    | num q => exact Or.inr ⟨q, rfl⟩
    | str t => exact absurd hget (hnum t)

/-- C3 at the failing input.  The action added through the form with the
category `constructor` gains 10 points per activation, so the claim puts 10 and
then 20 under `constructor`; the handler reads the inherited function
`Object.prototype.constructor` at line 284, writes no `0`, and line 285 stores
the string `function Object() { [native code] }10`, then `...1010`.  With the
category `__proto__` nothing is stored at all.  On other names the handler does
what the claim says: an empty category is filed under "Uncategorized", and
renaming an action's category leaves the earlier entry as it was. -/
theorem categories_inherited_name_failing_input :
    (withConstructorAction.actions[3]?).map
        (fun a => (a.category, gainOf withConstructorAction.multipliers a)) =
        some ("constructor", 10) ∧
    dayCategories "2025-03-14" (run "2025-03-14" withConstructorAction [.activate 3]) =
        [("constructor", .str "function Object() \x7b [native code] \x7d10")] ∧
    dayCategories "2025-03-14"
        (run "2025-03-14" withConstructorAction [.activate 3, .activate 3]) =
        [("constructor", .str "function Object() \x7b [native code] \x7d1010")] ∧
    dictGet "constructor"
        (dayCategories "2025-03-14" (run "2025-03-14" withConstructorAction [.activate 3])) ≠
        some (.num 10) ∧
    dayCategories "2025-03-14" (run "2025-03-14" withProtoAction [.activate 3]) = [] ∧
    dayCategories "2025-03-14" (run "2025-03-14" withEmptyCategory [.activate 0]) =
        [("Uncategorized", .num 10)] ∧
    dayCategories "2025-03-14" (run "2025-03-14" scenarioState renameScenario) =
        [("Focus", .num 10), ("Deep", .num 30)] := by
  refine ⟨by decide!, by decide!, by decide!, by decide!, by decide!, by decide!, by decide!⟩

/-! ## The frame of one activation -/

/-- One activation of the action `a` rendered at position `i` raises
`a.countToday` by 1 and leaves the other fields of `a`, the other actions, the
multipliers and the buckets of other days unchanged; it adds the gain to the
day's `totalPoints`; and when the category of `a` reads as `undefined` or as a
number, it adds the gain to that entry and changes no other entry. -/
theorem recordActivation_frame_of_number (key : String) (i : Nat) (s : State) (a : Action)
    (ha : s.actions[i]? = some a)
    (hread : readCategory (categoryOf a) (dayCategories key s) = .undefined ∨
      ∃ q, readCategory (categoryOf a) (dayCategories key s) = .num q) :
    (recordActivation key i s).actions[i]? =
        some { a with countToday := some (a.countToday.getD 0 + 1) } ∧
    (∀ k, k ≠ i → (recordActivation key i s).actions[k]? = s.actions[k]?) ∧
    (recordActivation key i s).actions.length = s.actions.length ∧
    (recordActivation key i s).multipliers = s.multipliers ∧
    (∀ k, k ≠ key →
        dictGet k (recordActivation key i s).dailyTotals = dictGet k s.dailyTotals) ∧
    dayTotal key (recordActivation key i s) = dayTotal key s + gainOf s.multipliers a ∧
    dictGet (categoryOf a) (dayCategories key (recordActivation key i s)) =
        some (.num (categoryNumber (categoryOf a) (dayCategories key s) +
          gainOf s.multipliers a)) ∧
    (∀ c, c ≠ categoryOf a →
        dictGet c (dayCategories key (recordActivation key i s)) =
          dictGet c (dayCategories key s)) := by
  have hlt : i < s.actions.length := by
    by_contra hge
    rw [List.getElem?_eq_none (by omega)] at ha
    exact Option.noConfusion ha
  have hcat := addToCategory_of_number (categoryOf a) (gainOf s.multipliers a)
    (dayCategories key s) hread
  rw [← dayCategories_recordActivation key i s a ha] at hcat
  refine ⟨?_, fun k hk => ?_, recordActivation_length key i s,
    recordActivation_multipliers key i s, fun k hk => ?_,
    dayTotal_recordActivation key i s a ha, hcat.1, hcat.2⟩
  · rw [recordActivation_actions key i s a ha]
    simp [List.getElem?_set, hlt]
  · rw [recordActivation_actions key i s a ha]
    simp [List.getElem?_set, Ne.symm hk]
  · simp only [recordActivation, ha]
    exact dictGet_dictSet_ne key k _ _ hk

/-- C10 at the failing input.  Activating the action added with the category
`__proto__` raises its `countToday` to 1 and the day's `totalPoints` from 0 to
10, but the entry of its category gets nothing: `categories` is as empty as
before.  Activating the action added with the category `constructor` stores a
string under it instead of the gain. -/
theorem recordActivation_inherited_category_failing_input :
    (withProtoAction.actions[3]?).map (fun a => (a.category, a.countToday)) =
        some ("__proto__", some 0) ∧
    ((recordActivation "2025-03-14" 3 withProtoAction).actions[3]?).map
        (fun a => (a.category, a.countToday)) = some ("__proto__", some 1) ∧
    dayTotal "2025-03-14" withProtoAction = 0 ∧
    dayTotal "2025-03-14" (recordActivation "2025-03-14" 3 withProtoAction) = 10 ∧
    dayCategories "2025-03-14" withProtoAction = [] ∧
    dayCategories "2025-03-14" (recordActivation "2025-03-14" 3 withProtoAction) = [] ∧
    dictGet "__proto__"
        (dayCategories "2025-03-14" (recordActivation "2025-03-14" 3 withProtoAction)) =
        none ∧
    dictGet "constructor"
        (dayCategories "2025-03-14" (recordActivation "2025-03-14" 3 withConstructorAction)) =
        some (.str "function Object() \x7b [native code] \x7d10") := by
  refine ⟨by decide!, by decide!, by decide!, by decide!, by decide!, by decide!,
    by decide!, by decide!⟩

/-! ## Reordering -/

theorem spliceStart_natCast (len n : Nat) : spliceStart len (n : Int) = min n len := by
  simp [spliceStart]

theorem spliceRemove_of_lt {α : Type} (arr : List α) (i : Nat) (h : i < arr.length) :
    spliceRemove arr (i : Int) = ([arr[i]], arr.take i ++ arr.drop (i + 1)) := by
  have hmin : min i arr.length = i := Nat.min_eq_left (Nat.le_of_lt h)
  have hdel : min 1 (arr.length - i) = 1 := Nat.min_eq_left (by omega)
  simp only [spliceRemove, spliceStart_natCast, hmin, hdel]
  rw [List.drop_eq_getElem_cons h]
  rfl

theorem spliceInsert_of_le {α : Type} (arr : List α) (j : Nat) (x : α) (h : j ≤ arr.length) :
    spliceInsert arr (j : Int) x = arr.take j ++ x :: arr.drop j := by
  simp only [spliceInsert, spliceStart_natCast, Nat.min_eq_left h]

theorem length_take_append_drop_succ {α : Type} (arr : List α) (i : Nat)
    (h : i < arr.length) : (arr.take i ++ arr.drop (i + 1)).length = arr.length - 1 := by
  simp only [List.length_append, List.length_take, List.length_drop]
  omega

/-- The reorder step at two distinct positions of the sequence: the element at
`i` is taken out and put back so that it stands at position `j`. -/
theorem reorder_of_lt {α : Type} (undefined : α) (seq : List α) (i j : Nat)
    (hi : i < seq.length) (hj : j < seq.length) (hne : i ≠ j) :
    reorder undefined seq (i : Int) (j : Int) =
      (seq.take i ++ seq.drop (i + 1)).take j ++
        seq[i] :: (seq.take i ++ seq.drop (i + 1)).drop j := by
  have h1 : ¬ ((i : Int) = -1) := by omega
  have h2 : ¬ ((j : Int) = -1 ∨ (j : Int) = (i : Int)) := by omega
  have hlen := length_take_append_drop_succ seq i hi
  simp only [reorder, h1, h2, if_false, spliceRemove_of_lt seq i hi, List.headD_cons]
  exact spliceInsert_of_le _ j _ (by omega)

theorem take_append_getElem_drop {α : Type} (seq : List α) (i : Nat) (hi : i < seq.length) :
    seq.take i ++ seq[i] :: seq.drop (i + 1) = seq := by
  rw [← List.drop_eq_getElem_cons hi, List.take_append_drop]

theorem reorder_perm_of_lt {α : Type} (undefined : α) (seq : List α) (i j : Nat)
    (hi : i < seq.length) (hj : j < seq.length) (hne : i ≠ j) :
    (reorder undefined seq (i : Int) (j : Int)).Perm seq := by
  rw [reorder_of_lt undefined seq i j hi hj hne]
  refine List.perm_middle.trans ?_
  rw [List.take_append_drop]
  exact (List.perm_middle.symm).trans (by rw [take_append_getElem_drop seq i hi])

/-- Moving the element at `i` to `j` and then the element at `j` to `i` gives
the sequence back, for any two positions of the sequence. -/
theorem reorder_reorder_of_lt {α : Type} (undefined : α) (seq : List α) (i j : Nat)
    (hi : i < seq.length) (hj : j < seq.length) (hne : i ≠ j) :
    reorder undefined (reorder undefined seq (i : Int) (j : Int)) (j : Int) (i : Int) = seq := by
  have hlen := length_take_append_drop_succ seq i hi
  have hj' : j ≤ (seq.take i ++ seq.drop (i + 1)).length := by omega
  have hlen2 : (reorder undefined seq (i : Int) (j : Int)).length = seq.length :=
    (reorder_perm_of_lt undefined seq i j hi hj hne).length_eq
  rw [reorder_of_lt undefined _ j i (by omega) (by omega) (Ne.symm hne)]
  have htake : (reorder undefined seq (i : Int) (j : Int)).take j =
      (seq.take i ++ seq.drop (i + 1)).take j := by
    rw [reorder_of_lt undefined seq i j hi hj hne,
      List.take_append_of_le_length (by simp; omega)]
    rw [List.take_take, Nat.min_self]
  have hdrop : (reorder undefined seq (i : Int) (j : Int)).drop (j + 1) =
      (seq.take i ++ seq.drop (i + 1)).drop j := by
    rw [reorder_of_lt undefined seq i j hi hj hne]
    have hl : ((seq.take i ++ seq.drop (i + 1)).take j).length = j := by
      rw [List.length_take]; omega
    rw [List.drop_append_eq_append_drop, hl]
    simp [List.drop_eq_nil_of_le, hl]
  have hget : (reorder undefined seq (i : Int) (j : Int))[j]? = some seq[i] := by
    rw [reorder_of_lt undefined seq i j hi hj hne]
    have hl : ((seq.take i ++ seq.drop (i + 1)).take j).length = j := by
      rw [List.length_take]; omega
    rw [List.getElem?_append_right (by omega), hl]
    simp
  have hjl : j < (reorder undefined seq (i : Int) (j : Int)).length := by omega
  have hget2 : (reorder undefined seq (i : Int) (j : Int))[j] = seq[i] := by
    rw [List.getElem?_eq_getElem hjl] at hget
    exact Option.some.inj hget
  rw [htake, hdrop, List.take_append_drop, hget2]
  have ht : (seq.take i ++ seq.drop (i + 1)).take i = seq.take i := by
    rw [List.take_append_of_le_length (by simp; omega), List.take_take, Nat.min_self]
  have hd : (seq.take i ++ seq.drop (i + 1)).drop i = seq.drop (i + 1) := by
    have hl : (seq.take i).length = i := by rw [List.length_take]; omega
    rw [List.drop_append_eq_append_drop, hl]
    simp [List.drop_eq_nil_of_le, hl]
  rw [ht, hd, take_append_getElem_drop seq i hi]

theorem reorder_same_index {α : Type} (undefined : α) (seq : List α) (index : Int) :
    reorder undefined seq index index = seq := by
  simp [reorder]

/-- C7: for indices that are both in bounds for `seq`, the reorder step yields a
permutation of `seq`: the same multiset of elements and the same length. -/
theorem reorder_is_permutation {α : Type} (undefined : α) (seq : List α)
    (fromIndex toIndex : Int) (hf0 : 0 ≤ fromIndex) (hf : fromIndex < seq.length)
    (ht0 : 0 ≤ toIndex) (ht : toIndex < seq.length) :
    (reorder undefined seq fromIndex toIndex).Perm seq ∧
    ((reorder undefined seq fromIndex toIndex : List α) : Multiset α) = (seq : Multiset α) ∧
    (reorder undefined seq fromIndex toIndex).length = seq.length := by
  have hperm : (reorder undefined seq fromIndex toIndex).Perm seq := by
    obtain ⟨i, rfl⟩ := Int.eq_ofNat_of_zero_le hf0
    obtain ⟨j, rfl⟩ := Int.eq_ofNat_of_zero_le ht0
    by_cases hij : i = j
    · subst hij
      rw [reorder_same_index]
    · exact reorder_perm_of_lt undefined seq i j (by omega) (by omega) hij
  exact ⟨hperm, Multiset.coe_eq_coe.mpr hperm, hperm.length_eq⟩

/-- C7 on a three-element sequence: moving the first element to the last position. -/
theorem reorder_is_permutation_witness :
    (reorder "" ["a", "b", "c"] 0 2).Perm ["a", "b", "c"] ∧
    reorder "" ["a", "b", "c"] 0 2 = ["b", "c", "a"] :=
  ⟨(reorder_is_permutation "" ["a", "b", "c"] 0 2 (by decide) (by decide) (by decide)
      (by decide)).1, by decide⟩

/-- C8 at the failing input.  A row of the action list (index 2) dragged over
the first row of the multiplier list hands the multiplier handler an index past
the end of its two elements: `splice(2, 1)` removes nothing, `[0]` of the empty
result is `undefined`, and `splice(0, 0, undefined)` inserts it.  The sequence
is not left unchanged: it grows to three elements, the first being `undefined`. -/
theorem reorder_past_end_failing_input :
    (defaultMultipliers.map some).length = 2 ∧
    spliceRemove (defaultMultipliers.map some) 2 = ([], defaultMultipliers.map some) ∧
    reorder none (defaultMultipliers.map some) 2 0 = none :: defaultMultipliers.map some ∧
    reorder none (defaultMultipliers.map some) 2 0 ≠ defaultMultipliers.map some ∧
    (reorder none (defaultMultipliers.map some) 2 0).length = 3 := by
  refine ⟨by decide!, by decide!, by decide!, by decide!, by decide!⟩

/-- The early returns of the handler: if the two indices are equal, or either
of them is `-1` (the value the handler reads when no index is available), the
reorder step leaves `seq` exactly unchanged. -/
theorem reorder_noop {α : Type} (undefined : α) (seq : List α) (fromIndex toIndex : Int)
    (h : fromIndex = toIndex ∨ fromIndex = -1 ∨ toIndex = -1) :
    reorder undefined seq fromIndex toIndex = seq := by
  unfold reorder
  rcases h with h | h | h
  · subst h
    simp
  · simp [h]
  · simp [h]

/-- The early returns at concrete indices: equal indices (even out of bounds)
and the index `-1` leave the sequence as it is. -/
theorem reorder_noop_witness :
    reorder "" ["a", "b"] 7 7 = ["a", "b"] ∧ reorder "" ["a", "b"] (-1) 1 = ["a", "b"] :=
  ⟨reorder_noop "" ["a", "b"] 7 7 (Or.inl rfl),
   reorder_noop "" ["a", "b"] (-1) 1 (Or.inr (Or.inl rfl))⟩

/-- C9: for in-bounds indices `i`, `j` that are adjacent, the reorder step from
`i` to `j` followed by the reorder step from `j` to `i` restores `seq` exactly. -/
theorem reorder_adjacent_roundtrip {α : Type} (undefined : α) (seq : List α) (i j : Int)
    (hi0 : 0 ≤ i) (hi : i < seq.length) (hj0 : 0 ≤ j) (hj : j < seq.length)
    (hadj : |i - j| = 1) :
    reorder undefined (reorder undefined seq i j) j i = seq := by
  have hne : i ≠ j := by
    rintro rfl
    simp at hadj
  obtain ⟨m, rfl⟩ := Int.eq_ofNat_of_zero_le hi0
  obtain ⟨n, rfl⟩ := Int.eq_ofNat_of_zero_le hj0
  exact reorder_reorder_of_lt undefined seq m n (by omega) (by omega)
    (fun h => hne (by rw [h]))

/-- C9 on a three-element sequence: swapping positions 1 and 2 and back. -/
theorem reorder_adjacent_roundtrip_witness :
    reorder "" ["a", "b", "c"] 1 2 = ["a", "c", "b"] ∧
    reorder "" (reorder "" ["a", "b", "c"] 1 2) 2 1 = ["a", "b", "c"] :=
  ⟨by decide,
   reorder_adjacent_roundtrip "" ["a", "b", "c"] 1 2 (by decide) (by decide) (by decide)
     (by decide) (by decide)⟩

/-! ## Loading and saving -/

theorem loadState_of_ok (parse : String → Except JSError JSValue) (raw : Option String)
    (v : JSValue) (h : loadStateTry parse raw = .ok v) : loadState parse raw = .ok v := by
  simp [loadState, h]

theorem loadState_of_error (parse : String → Except JSError JSValue) (raw : Option String)
    (e : JSError) (h : loadStateTry parse raw = .error e) :
    loadState parse raw = .ok defaultState.toJS := by
  simp [loadState, h]

theorem getProp_orElse_obj (fields : List (String × JSValue)) (name : String) (d : JSValue) :
    ((dictGet name fields).getD .undefined).orElse d = storedOrDefault fields name d := by
  unfold storedOrDefault JSValue.orElse
  cases dictGet name fields with
  | none => simp [JSValue.truthy]
  | some v => simp

theorem loadStateTry_obj (parse : String → Except JSError JSValue) (text : String)
    (fields : List (String × JSValue)) (hne : text ≠ "")
    (hparse : parse text = .ok (.obj fields)) :
    loadStateTry parse (some text) = .ok (.obj
      [("actions", storedOrDefault fields "actions" (.arr (defaultActions.map Action.toJS))),
       ("multipliers",
          storedOrDefault fields "multipliers" (.arr (defaultMultipliers.map Multiplier.toJS))),
       ("dailyTotals", storedOrDefault fields "dailyTotals" (.obj []))]) := by
  have hbody : loadStateTry parse (some text) = .ok (.obj
      [("actions", ((dictGet "actions" fields).getD .undefined).orElse
          (.arr (defaultActions.map Action.toJS))),
       ("multipliers", ((dictGet "multipliers" fields).getD .undefined).orElse
          (.arr (defaultMultipliers.map Multiplier.toJS))),
       ("dailyTotals", ((dictGet "dailyTotals" fields).getD .undefined).orElse (.obj []))]) := by
    simp only [loadStateTry, hne, if_false, hparse]
    rfl
  rw [hbody, getProp_orElse_obj, getProp_orElse_obj, getProp_orElse_obj]

/-- C4, as stated, fails when a field is present with a falsy value: for the
stored text `{"actions":false}` the loaded `actions` is the default sequence and
not the stored `false`. -/
theorem loadState_falsy_field_counterexample :
    parseSample falseActionsText = .ok (.obj [("actions", .bool false)]) ∧
    dictGet "actions" [("actions", JSValue.bool false)] = some (.bool false) ∧
    loadState parseSample (some falseActionsText) = .ok defaultState.toJS ∧
    loadState parseSample (some falseActionsText) ≠
      .ok (.obj [("actions", .bool false),
                 ("multipliers", .arr (defaultMultipliers.map Multiplier.toJS)),
                 ("dailyTotals", .obj [])]) := by
  have h : loadState parseSample (some falseActionsText) = .ok defaultState.toJS := rfl
  refine ⟨rfl, rfl, h, ?_⟩
  rw [h]
  intro hEq
  simp [State.toJS] at hEq

/-- C4, amended: `loadState` never raises; it returns the default record
(actions a1, a2, a3 with `countToday` 0, multipliers m1, m2 inactive, empty
`dailyTotals`) when the slot is missing or empty, when its text does not parse,
and when it parses to `null`; and when it parses to an object, each of
`actions`, `multipliers`, `dailyTotals` is, independently, the stored field when
that field is present with a truthy value and the default field when it is
absent or falsy. -/
theorem loadState_defaults (parse : String → Except JSError JSValue) (raw : Option String) :
    (∃ v, loadState parse raw = .ok v) ∧
    ((raw = none ∨ raw = some "") → loadState parse raw = .ok defaultState.toJS) ∧
    (∀ text e, raw = some text → parse text = .error e →
        loadState parse raw = .ok defaultState.toJS) ∧
    (∀ text, raw = some text → parse text = .ok .null →
        loadState parse raw = .ok defaultState.toJS) ∧
    (∀ text fields, raw = some text → text ≠ "" → parse text = .ok (.obj fields) →
        loadState parse raw = .ok (.obj
          [("actions",
              storedOrDefault fields "actions" (.arr (defaultActions.map Action.toJS))),
           ("multipliers",
              storedOrDefault fields "multipliers"
                (.arr (defaultMultipliers.map Multiplier.toJS))),
           ("dailyTotals", storedOrDefault fields "dailyTotals" (.obj []))])) ∧
    defaultState.toJS = .obj
      [("actions", .arr (defaultActions.map Action.toJS)),
       ("multipliers", .arr (defaultMultipliers.map Multiplier.toJS)),
       ("dailyTotals", .obj [])] := by
  refine ⟨?_, ?_, ?_, ?_, ?_, rfl⟩
  · cases h : loadStateTry parse raw with
    | ok v => exact ⟨v, loadState_of_ok parse raw v h⟩
    | error e => exact ⟨_, loadState_of_error parse raw e h⟩
  · rintro (h | h) <;> subst h <;> simp [loadState, loadStateTry]
  · intro text e hraw hparse
    subst hraw
    by_cases ht : text = ""
    · simp [loadState, loadStateTry, ht]
    · exact loadState_of_error parse _ e (by
        simp only [loadStateTry, ht, if_false, hparse]
        rfl)
  · intro text hraw hparse
    subst hraw
    by_cases ht : text = ""
    · simp [loadState, loadStateTry, ht]
    · exact loadState_of_error parse _ .typeError (by
        simp only [loadStateTry, ht, if_false, hparse]
        rfl)
  · intro text fields hraw hne hparse
    subst hraw
    exact loadState_of_ok parse _ _ (loadStateTry_obj parse text fields hne hparse)

/-- Loading the text of a state: when the slot holds a non-empty text that
`JSON.parse` reads as the document of `s`, `loadState` returns that document. -/
theorem loadState_of_state (parse : String → Except JSError JSValue) (text : String)
    (s : State) (hne : text ≠ "") (hparse : parse text = .ok s.toJS) :
    loadState parse (some text) = .ok s.toJS := by
  have hfields : s.toJS = .obj
      [("actions", .arr (s.actions.map Action.toJS)),
       ("multipliers", .arr (s.multipliers.map Multiplier.toJS)),
       ("dailyTotals", .obj (s.dailyTotals.map (fun kv => (kv.1, kv.2.toJS))))] := rfl
  have hload := loadStateTry_obj parse text _ hne (hfields ▸ hparse)
  rw [loadState_of_ok parse _ _ hload]
  rfl

/-- C5: the clear-all handler writes the text of the default record to the
storage slot, whatever the state and the slot were before, and `loadState` on
that slot returns exactly the default record (the three seed actions, the two
seed multipliers, an empty `dailyTotals`).  `JSON.stringify` and `JSON.parse`
are assumed to round-trip the default record, and the text written for it not
to be empty. -/
theorem clearAll_then_loadState (stringify : JSValue → String)
    (parse : String → Except JSError JSValue) (key : String) (s : State)
    (slot : Option String) (hne : stringify defaultState.toJS ≠ "")
    (hround : parse (stringify defaultState.toJS) = .ok defaultState.toJS) :
    (clearAll stringify key true s slot).2 = some (stringify defaultState.toJS) ∧
    loadState parse (clearAll stringify key true s slot).2 = .ok defaultState.toJS ∧
    (clearAll stringify key true s slot).1 = renderTotals key defaultState := by
  have hslot : (clearAll stringify key true s slot).2 = some (stringify defaultState.toJS) :=
    rfl
  refine ⟨hslot, ?_, rfl⟩
  rw [hslot]
  exact loadState_of_state parse _ defaultState hne hround

theorem parseBack_first (d : JSValue) (rest : List JSValue) :
    parseBack (d :: rest) (jsonStringify d) = .ok d := by
  simp [parseBack, List.find?]

theorem parseBack_second (d1 d2 : JSValue) (h : jsonStringify d1 ≠ jsonStringify d2) :
    parseBack [d1, d2] (jsonStringify d2) = .ok d2 := by
  simp [parseBack, List.find?, h]

theorem jsonStringify_dayOne_ne : jsonStringify defaultState.toJS ≠ jsonStringify dayOne.toJS := by
  decide!

/-- C5 on a state with a day of history.  Before the click the slot holds the
text of that state and loading it gives the state back, with its history;
clear-all replaces the text by the text of the default record, and loading
gives the default record. -/
theorem clearAll_then_loadState_witness :
    loadState (parseBack [defaultState.toJS, dayOne.toJS]) (saveState jsonStringify dayOne) =
        .ok dayOne.toJS ∧
    dayOne.toJS ≠ defaultState.toJS ∧
    jsonStringify defaultState.toJS = defaultStateText ∧
    (clearAll jsonStringify "2025-03-14" true dayOne (saveState jsonStringify dayOne)).2 =
        some defaultStateText ∧
    loadState (parseBack [defaultState.toJS, dayOne.toJS])
        (clearAll jsonStringify "2025-03-14" true dayOne (saveState jsonStringify dayOne)).2 =
        .ok defaultState.toJS := by
  have htext : jsonStringify defaultState.toJS = defaultStateText := by decide!
  have hne : jsonStringify defaultState.toJS ≠ "" := by decide!
  have hround : parseBack [defaultState.toJS, dayOne.toJS] (jsonStringify defaultState.toJS) =
      .ok defaultState.toJS := parseBack_first _ _
  have h := clearAll_then_loadState jsonStringify (parseBack [defaultState.toJS, dayOne.toJS])
    "2025-03-14" dayOne (saveState jsonStringify dayOne) hne hround
  refine ⟨?_, ?_, htext, ?_, h.2.1⟩
  · exact loadState_of_state _ _ dayOne (by decide!)
      (parseBack_second _ _ jsonStringify_dayOne_ne)
  · intro hEq
    exact jsonStringify_dayOne_ne (congrArg jsonStringify hEq).symm
  · rw [h.1, htext]

/-! ## Validation of add and edit requests -/

theorem not_isPositive_iff (x : JSNum) :
    ¬ x.IsPositive ↔ (x.truthy = false ∨ x.leZero = true) := by
  cases x with
  | nan =>
    simp only [JSNum.truthy, JSNum.leZero, true_or, iff_true]
    rintro ⟨q, _, h⟩
    exact JSNum.noConfusion h
  | fin q =>
    simp only [JSNum.truthy, JSNum.leZero, JSNum.IsPositive, decide_eq_false_iff_not,
      decide_eq_true_eq, not_not]
    constructor
    · intro h
      right
      by_contra hq
      exact h ⟨q, lt_of_not_ge hq, rfl⟩
    · rintro (h | h) ⟨r, hr, hEq⟩
      · injection hEq with hEq
        rw [h] at hEq
        exact absurd hEq.symm (ne_of_gt hr)
      · injection hEq with hEq
        rw [hEq] at h
        exact absurd hr (not_lt_of_ge h)

/-- The modal rejects an empty name and a numeric field that is not a strictly
positive number (zero, negative, or `NaN`), leaving the state as it is. -/
theorem modalSave_rejects (key : String) (modalContext : Option (ModalType × String))
    (nameInput : String) (points : JSNum) (categoryInput colorInput : String) (s : State)
    (h : jsTrim nameInput = "" ∨ ¬ points.IsPositive) :
    modalSave key modalContext nameInput points categoryInput colorInput s = s := by
  rw [not_isPositive_iff] at h
  cases modalContext with
  | none => rfl
  | some ctx =>
    obtain ⟨ty, id⟩ := ctx
    by_cases hname : jsTrim nameInput = ""
    · simp [modalSave, hname]
    · have hp : (!points.truthy || points.leZero) = true := by
        rcases h with h | h | h
        · exact absurd h hname
        · simp [h]
        · simp [h]
      cases ty with
      | action =>
        simp only [modalSave, hname, if_false]
        cases s.actions.find? (fun a => a.id = id) with
        | none => rfl
        | some _ => simp [hp]
      | multiplier =>
        simp only [modalSave, hname, if_false]
        cases s.multipliers.find? (fun m => m.id = id) with
        | none => rfl
        | some _ => simp [hp]

/-- The add handlers reject an empty name and a numeric field that is zero or
negative, leaving the state as it is. -/
theorem add_rejects (randomId : String → String) (key nameInput : String) (number : JSNum)
    (categoryInput colorInput : String) (s : State)
    (h : jsTrim nameInput = "" ∨ number.leZero = true) :
    addAction randomId nameInput number categoryInput colorInput s = s ∧
    addMultiplier randomId key nameInput number colorInput s = s := by
  constructor
  · simp only [addAction]
    rcases h with h | h <;> simp [h]
  · simp only [addMultiplier]
    rcases h with h | h <;> simp [h]

/-- C6 at the failing input: a numeric field that is `NaN` is not a strictly
positive number, and the modal rejects it for an action and for a multiplier,
but the add-action and add-multiplier handlers accept it (`NaN <= 0` is false)
and append an entry whose `basePoints`, respectively `value`, is `NaN` (the
add-multiplier handler then renders the totals, which creates the day's bucket). -/
theorem add_accepts_nan :
    ¬ JSNum.IsPositive .nan ∧
    addAction sampleId "Run" .nan "" "" defaultState =
      { defaultState with
        actions := defaultActions ++
          [{ id := "ak3x9q1z2", name := "Run", basePoints := .nan,
             category := "Uncategorized", color := "#38bdf8", countToday := some 0 }] } ∧
    addAction sampleId "Run" .nan "" "" defaultState ≠ defaultState ∧
    addMultiplier sampleId "2025-03-14" "Rush" .nan "" defaultState =
      { defaultState with
        multipliers := defaultMultipliers ++
          [{ id := "mk3x9q1z2", name := "Rush", value := .nan, color := "#f97316",
             active := false }],
        dailyTotals := [("2025-03-14", emptyBucket)] } ∧
    addMultiplier sampleId "2025-03-14" "Rush" .nan "" defaultState ≠ defaultState ∧
    modalSave "2025-03-14" (some (.action, "a1")) "Run" .nan "" "" defaultState =
      defaultState ∧
    modalSave "2025-03-14" (some (.multiplier, "m1")) "Rush" .nan "" "" defaultState =
      defaultState := by
  refine ⟨?_, by decide!, by decide!, by decide!, by decide!, by decide!, by decide!⟩
  rintro ⟨q, _, h⟩
  exact JSNum.noConfusion h

/-! ## Lazy creation of the day's bucket -/

theorem dictSet_of_none {β : Type} (key : String) (v : β) (l : List (String × β))
    (h : dictGet key l = none) : dictSet key v l = l ++ [(key, v)] := by
  induction l with
  | nil => rfl
  | cons kv rest ih =>
    obtain ⟨k, w⟩ := kv
    by_cases hk : k = key
    · simp [dictGet, hk] at h
    · simp only [dictGet, hk, if_false] at h
      simp [dictSet, hk, ih h]

theorem renderTotals_of_some (key : String) (s : State) (b : DailyBucket)
    (h : dictGet key s.dailyTotals = some b) : renderTotals key s = s := by
  simp [renderTotals, getTodayTotals, h]

theorem renderTotals_of_none (key : String) (s : State)
    (h : dictGet key s.dailyTotals = none) :
    renderTotals key s = { s with dailyTotals := s.dailyTotals ++ [(key, emptyBucket)] } := by
  simp [renderTotals, getTodayTotals, h, dictSet_of_none key emptyBucket s.dailyTotals h]

theorem renderTotals_keeps (key day : String) (s : State) (b : DailyBucket)
    (h : dictGet day s.dailyTotals = some b) :
    dictGet day (renderTotals key s).dailyTotals = some b := by
  cases hk : dictGet key s.dailyTotals with
  | some c => rw [renderTotals_of_some key s c hk, h]
  | none =>
    have hne : day ≠ key := by
      rintro rfl
      rw [hk] at h
      exact Option.noConfusion h
    simp only [renderTotals, getTodayTotals, hk]
    rw [dictGet_dictSet_ne key day _ _ hne, h]

theorem renderTotals_with_multipliers (key : String) (s : State) (ms : List Multiplier) :
    { renderTotals key s with multipliers := ms } =
      renderTotals key { s with multipliers := ms } := by
  unfold renderTotals getTodayTotals
  cases h : dictGet key s.dailyTotals <;> simp [h]

/-- What a handler that changes the multipliers and then renders the totals
does to `dailyTotals`: every bucket there is stays, nothing changes when the
day has a bucket, and the day's empty bucket is appended when it has none. -/
theorem renderTotals_dailyTotals (key : String) (s : State) (ms : List Multiplier) :
    (∀ day b, dictGet day s.dailyTotals = some b →
        dictGet day (renderTotals key { s with multipliers := ms }).dailyTotals = some b) ∧
    ((∃ b, dictGet key s.dailyTotals = some b) →
        (renderTotals key { s with multipliers := ms }).dailyTotals = s.dailyTotals) ∧
    (dictGet key s.dailyTotals = none →
        (renderTotals key { s with multipliers := ms }).dailyTotals =
          s.dailyTotals ++ [(key, emptyBucket)]) := by
  refine ⟨fun day b h => renderTotals_keeps key day { s with multipliers := ms } b h,
    fun ⟨b, hb⟩ => ?_, fun h => ?_⟩
  · rw [renderTotals_of_some key { s with multipliers := ms } b hb]
  · rw [renderTotals_of_none key { s with multipliers := ms } h]

/-! ## Toggling a multiplier -/

theorem set_of_getElem? {α : Type} (l : List α) (j : Nat) (x : α) (h : l[j]? = some x) :
    l.set j x = l := by
  induction l generalizing j with
  | nil => rfl
  | cons y ys ih =>
    cases j with
    | zero =>
      simp only [List.getElem?_cons_zero, Option.some.injEq] at h
      simp [h]
    | succ k =>
      simp only [List.getElem?_cons_succ] at h
      simp [ih k h]

theorem toggleMultiplier_twice (key key2 : String) (j : Nat) (s : State) (m : Multiplier)
    (h : s.multipliers[j]? = some m) :
    toggleMultiplier key2 j (toggleMultiplier key j s) =
      renderTotals key2 (renderTotals key s) := by
  have hlt : j < s.multipliers.length := by
    by_contra hge
    rw [List.getElem?_eq_none (by omega)] at h
    exact Option.noConfusion h
  have hflip : (toggleMultiplier key j s).multipliers[j]? =
      some { m with active := !m.active } := by
    rw [toggleMultiplier_multipliers key j s m h]
    simp [List.getElem?_set, hlt]
  rw [toggleMultiplier_of_some key2 j _ _ hflip, toggleMultiplier_multipliers key j s m h,
    toggleMultiplier_of_some key j s m h, renderTotals_with_multipliers]
  simp only [List.set_set, Bool.not_not]
  rw [set_of_getElem? s.multipliers j m h]

/-- C11, as stated, fails when `dailyTotals` has no bucket for the current day.
In the state left by `init()` on 14 March, a toggle on 15 March flips the
multiplier and, through `renderTotals()`, adds the empty bucket of 15 March: so
`dailyTotals` changes, and a second toggle does not give the original state. -/
theorem toggleMultiplier_new_day_counterexample :
    afterInit.dailyTotals = [("2025-03-14", emptyBucket)] ∧
    (toggleMultiplier "2025-03-15" 0 afterInit).dailyTotals =
      [("2025-03-14", emptyBucket), ("2025-03-15", emptyBucket)] ∧
    (toggleMultiplier "2025-03-15" 0 afterInit).dailyTotals ≠ afterInit.dailyTotals ∧
    toggleMultiplier "2025-03-15" 0 (toggleMultiplier "2025-03-15" 0 afterInit) ≠ afterInit := by
  refine ⟨by decide!, by decide!, by decide!, by decide!⟩

/-- C11, amended: toggling the multiplier `m` rendered at position `j` flips
`m.active` and changes nothing else in the multipliers or the actions; every
bucket of `dailyTotals` is unchanged, and `dailyTotals` is unchanged when it
holds a bucket for the current day and otherwise gains that day's empty bucket
(created by the rendering that follows the toggle).  Toggling twice in a row
gives the original state with the buckets of the days of the two toggles
created, so exactly the original state when the current day has its bucket. -/
theorem toggleMultiplier_flips (key : String) (j : Nat) (s : State) (m : Multiplier)
    (h : s.multipliers[j]? = some m) :
    (toggleMultiplier key j s).multipliers[j]? = some { m with active := !m.active } ∧
    (∀ k, k ≠ j → (toggleMultiplier key j s).multipliers[k]? = s.multipliers[k]?) ∧
    (toggleMultiplier key j s).multipliers.length = s.multipliers.length ∧
    (toggleMultiplier key j s).actions = s.actions ∧
    (∀ day b, dictGet day s.dailyTotals = some b →
        dictGet day (toggleMultiplier key j s).dailyTotals = some b) ∧
    ((∃ b, dictGet key s.dailyTotals = some b) →
        (toggleMultiplier key j s).dailyTotals = s.dailyTotals) ∧
    (dictGet key s.dailyTotals = none →
        (toggleMultiplier key j s).dailyTotals = s.dailyTotals ++ [(key, emptyBucket)]) ∧
    (∀ key2, toggleMultiplier key2 j (toggleMultiplier key j s) =
        renderTotals key2 (renderTotals key s)) ∧
    ((∃ b, dictGet key s.dailyTotals = some b) →
        toggleMultiplier key j (toggleMultiplier key j s) = s) := by
  have hlt : j < s.multipliers.length := by
    by_contra hge
    rw [List.getElem?_eq_none (by omega)] at h
    exact Option.noConfusion h
  have hd := renderTotals_dailyTotals key s
    (s.multipliers.set j { m with active := !m.active })
  rw [← toggleMultiplier_of_some key j s m h] at hd
  refine ⟨?_, fun k hk => ?_, toggleMultiplier_length key j s,
    toggleMultiplier_actions key j s, hd.1, hd.2.1, hd.2.2,
    fun key2 => toggleMultiplier_twice key key2 j s m h, fun ⟨b, hb⟩ => ?_⟩
  · rw [toggleMultiplier_multipliers key j s m h]
    simp [List.getElem?_set, hlt]
  · rw [toggleMultiplier_multipliers key j s m h]
    simp [List.getElem?_set, Ne.symm hk]
  · rw [toggleMultiplier_twice key key j s m h, renderTotals_of_some key s b hb,
      renderTotals_of_some key s b hb]

/-- C11 amended, on the state left by `init()` on 14 March: a toggle on that
day switches the first seed multiplier on and leaves `dailyTotals` as it is,
and a second toggle gives the state back. -/
theorem toggleMultiplier_flips_witness :
    afterInit.multipliers[0]? = some
      { id := "m1", name := "Power hour", value := .fin 2, color := "#f97316",
        active := false } ∧
    (toggleMultiplier "2025-03-14" 0 afterInit).multipliers[0]? = some
      { id := "m1", name := "Power hour", value := .fin 2, color := "#f97316",
        active := true } ∧
    (toggleMultiplier "2025-03-14" 0 afterInit).dailyTotals = afterInit.dailyTotals ∧
    toggleMultiplier "2025-03-14" 0 (toggleMultiplier "2025-03-14" 0 afterInit) = afterInit :=
  ⟨by decide!,
   (toggleMultiplier_flips "2025-03-14" 0 afterInit
      { id := "m1", name := "Power hour", value := .fin 2, color := "#f97316",
        active := false } (by decide!)).1,
   by decide!, by decide!⟩

/-! ## Removing an action and resetting to the defaults -/

/-- C12, as stated, fails for the multiplier reset when `dailyTotals` has no
bucket for the current day: in the state left by `init()` on 14 March, a reset
on 15 March adds the date key of 15 March through `renderTotals()`. -/
theorem resetMultipliers_new_day_counterexample :
    afterInit.dailyTotals = [("2025-03-14", emptyBucket)] ∧
    (resetMultipliers "2025-03-15" true afterInit).dailyTotals =
      [("2025-03-14", emptyBucket), ("2025-03-15", emptyBucket)] ∧
    (resetMultipliers "2025-03-15" true afterInit).dailyTotals ≠ afterInit.dailyTotals ∧
    (resetMultipliers "2025-03-15" true afterInit).dailyTotals.map (fun kv => kv.1) ≠
      afterInit.dailyTotals.map (fun kv => kv.1) := by
  refine ⟨by decide!, by decide!, by decide!, by decide!⟩

/-- C12, amended: removing an action and resetting the actions to the defaults
leave `dailyTotals` exactly unchanged.  Resetting the multipliers to the
defaults leaves every bucket of `dailyTotals` unchanged, the entries recorded
under any category included; `dailyTotals` is unchanged when it holds a bucket
for the current day (and when the reset is not confirmed), and otherwise gains
that day's empty bucket, created by the rendering that follows the reset. -/
theorem dailyTotals_after_remove_and_reset (key : String) (confirmed : Bool) (id : String)
    (s : State) :
    (removeAction confirmed id s).dailyTotals = s.dailyTotals ∧
    (resetActions confirmed s).dailyTotals = s.dailyTotals ∧
    (∀ day b, dictGet day s.dailyTotals = some b →
        dictGet day (resetMultipliers key confirmed s).dailyTotals = some b) ∧
    ((∃ b, dictGet key s.dailyTotals = some b) →
        (resetMultipliers key confirmed s).dailyTotals = s.dailyTotals) ∧
    (resetMultipliers key false s).dailyTotals = s.dailyTotals ∧
    (dictGet key s.dailyTotals = none →
        (resetMultipliers key true s).dailyTotals = s.dailyTotals ++ [(key, emptyBucket)]) := by
  have hd := renderTotals_dailyTotals key s defaultMultipliers
  refine ⟨?_, ?_, fun day b hb => ?_, fun hb => ?_, rfl, hd.2.2⟩
  · unfold removeAction
    split <;> rfl
  · unfold resetActions
    split <;> rfl
  · cases confirmed with
    | false => exact hb
    | true => exact hd.1 day b hb
  · cases confirmed with
    | false => rfl
    | true => exact hd.2.1 hb

/-- C12 amended, on a concrete day: the second seed action is activated (20
points under "Health") and then removed, and the multipliers are reset on the
same day; the action is gone and the bucket is as it was. -/
theorem dailyTotals_after_remove_and_reset_witness :
    (recordActivation "2025-03-14" 1 afterInit).dailyTotals =
      [("2025-03-14", { totalPoints := 20, categories := [("Health", .num 20)] })] ∧
    (removeAction true "a2" (recordActivation "2025-03-14" 1 afterInit)).actions.length = 2 ∧
    (removeAction true "a2" (recordActivation "2025-03-14" 1 afterInit)).dailyTotals =
      [("2025-03-14", { totalPoints := 20, categories := [("Health", .num 20)] })] ∧
    (resetMultipliers "2025-03-14" true
        (removeAction true "a2" (recordActivation "2025-03-14" 1 afterInit))).dailyTotals =
      [("2025-03-14", { totalPoints := 20, categories := [("Health", .num 20)] })] := by
  have h := (dailyTotals_after_remove_and_reset "2025-03-14" true "a2"
    (recordActivation "2025-03-14" 1 afterInit)).1
  refine ⟨by decide!, by decide!, ?_, by decide!⟩
  rw [h]
  decide!

/-! ## Bucket consistency -/

theorem bucketConsistent_emptyBucket : BucketConsistent emptyBucket :=
  ⟨[], rfl, rfl⟩

/-- C13 at the failing input.  From the default record: `init()` creates the
day's bucket, the add form adds an action worth 10 points with the category
`__proto__`, and the action is activated.  The bucket then has `totalPoints` 10
and no category at all, so `totalPoints` is not the sum of the category values.
With the category `constructor` the one category value is a string. -/
theorem bucket_inconsistent_failing_input :
    withProtoAction =
      addAction sampleId "Run" (.fin 10) "__proto__" "" (renderTotals "2025-03-14" defaultState) ∧
    (recordActivation "2025-03-14" 3 withProtoAction).dailyTotals =
      [("2025-03-14", { totalPoints := 10, categories := [] })] ∧
    ¬ BucketConsistent { totalPoints := 10, categories := [] } ∧
    (recordActivation "2025-03-14" 3 withConstructorAction).dailyTotals =
      [("2025-03-14", { totalPoints := 10, categories :=
          [("constructor", .str "function Object() \x7b [native code] \x7d10")] })] ∧
    ¬ BucketConsistent { totalPoints := 10, categories :=
          [("constructor", .str "function Object() \x7b [native code] \x7d10")] } := by
  refine ⟨rfl, by decide!, ?_, by decide!, ?_⟩
  · rintro ⟨qs, hqs, hsum⟩
    simp only [categoryNumbers, Option.some.injEq] at hqs
    subst hqs
    norm_num at hsum
  · rintro ⟨qs, hqs, _⟩
    simp [categoryNumbers] at hqs

end PointTracker
